import Mathlib

/-!
Verification development for the `rust-wfa` pairwise-alignment crate.

The Rust sources are shallowly embedded: every definition below mirrors one
function of the repository (its name is kept where Lean allows it, and noted
in a comment otherwise).  Machine integers (`i32`, `u32`) are modelled as
`Int`/`Nat`; none of the verified claims depends on wrap-around behaviour.
A Rust `Vec` is a `List`; an indexing expression `v[i]`, which panics when
out of range, is modelled by an `Option`-valued read/write, so `none` at the
outer level of a result always means "the Rust code panics" while `some`
carries the value the Rust code produces.  Error payload strings (the
`format!` messages inside `ZeroLength`/`QueryTooLong`) are irrelevant to
every property below and are dropped from the error constructors.
-/

set_option autoImplicit false

namespace RustWfa

/-! ## Vector access helpers

`getN?`/`setN?` model `v[i]` for a `usize` index: `none` is a Rust panic.
`getI?`/`setI?` model `v[(e) as usize]` where `e : i32`: a negative value
reinterprets as a huge `usize` and hence panics, so they return `none` for
negative indices. -/

def getN? {α : Type} (v : List α) (i : Nat) : Option α := v.get? i

def setN? {α : Type} (v : List α) (i : Nat) (x : α) : Option (List α) :=
  if i < v.length then some (v.set i x) else none

def getI? {α : Type} (v : List α) (i : Int) : Option α :=
  if i < 0 then none else v.get? i.toNat

def setI? {α : Type} (v : List α) (i : Int) (x : α) : Option (List α) :=
  if i < 0 then none else setN? v i.toNat x

/-! ## `alignment_lib.rs`: shared types -/

/-- `AlignmentLayer` from `alignment_lib.rs`. -/
inductive AlignmentLayer : Type
  | Matches
  | Inserts
  | Deletes
  deriving DecidableEq, Repr

/-- `Penalties` from `alignment_lib.rs`; the engine and the reference aligner
do `i32` arithmetic on the fields, so they are modelled as `Int`. -/
structure Penalties : Type where
  mismatch_pen : Int
  open_pen : Int
  extd_pen : Int
  deriving DecidableEq, Repr

/-- `Alignment` from `alignment_lib.rs` / `lib.rs` (`score` is used as `i32`). -/
structure Alignment : Type where
  score : Int
  query_aligned : String
  text_aligned : String
  deriving DecidableEq, Repr

/-- The two alignment error kinds (`AlignmentError` in `alignment_lib.rs`,
`AlignError` in the engine); payload strings dropped. -/
inductive AlignmentError : Type
  | ZeroLength
  | QueryTooLong
  deriving DecidableEq, Repr

/-- `AlignResult` as used by `wavefront_alignment.rs`. -/
inductive AlignResult : Type
  | Res (a : Alignment)
  | Error (e : AlignmentError)
  deriving DecidableEq, Repr

/-! ## `alignment_lib.rs`: the wavefront grid -/

/-- `WavefrontGrid` from `alignment_lib.rs`.  Cell offsets are `u32` (`Nat`). -/
structure WavefrontGrid : Type where
  diags : List (Int × Int)
  offsets : List Nat
  matchesL : List (Option (Nat × AlignmentLayer))
  insertsL : List (Option (Nat × AlignmentLayer))
  deletesL : List (Option (Nat × AlignmentLayer))
  deriving DecidableEq, Repr

/-- `new_wavefront_grid` from `alignment_lib.rs`. -/
def new_wavefront_grid : WavefrontGrid :=
  { diags := [(0, 0)]
    offsets := [0, 1]
    matchesL := [some (0, AlignmentLayer.Matches)]
    insertsL := [none]
    deletesL := [none] }

namespace WavefrontGrid

/-- `WavefrontGrid::add_layer`.  The `self.offsets[self.offsets.len() - 1]`
read panics when `offsets` is empty, hence the `Option`.  The pushed width is
`(hi - lo + 1) as usize` and the per-cell loop runs over `lo..=hi`; under the
precondition `lo ≤ hi` both equal `(hi - lo + 1).toNat`. -/
def add_layer (g : WavefrontGrid) (lo hi : Int) : Option WavefrontGrid := do
  let last ← g.offsets.get? (g.offsets.length - 1)
  let newWidth : Nat := (hi - lo + 1).toNat
  pure { diags := g.diags ++ [(lo, hi)]
         offsets := g.offsets ++ [last + newWidth]
         matchesL := g.matchesL ++ List.replicate newWidth none
         insertsL := g.insertsL ++ List.replicate newWidth none
         deletesL := g.deletesL ++ List.replicate newWidth none }

/-- `WavefrontGrid::get`.  Outer `none` = panic; `some none` = absent cell.
Mirrors the short-circuit order of the Rust condition: the length test on
`offsets` is done first, and only then is `self.diags[score]` indexed (which
panics when `score ≥ diags.len()`, i.e. when `score = offsets.len() - 1`). -/
def get (g : WavefrontGrid) (layer : AlignmentLayer) (score : Nat) (diag : Int) :
    Option (Option (Nat × AlignmentLayer)) :=
  if score ≥ g.offsets.length then some none
  else match g.diags.get? score with
    | none => none
    | some (lo, hi) =>
      if diag < lo ∨ diag > hi then some none
      else match g.offsets.get? score with
        | none => none
        | some base =>
          let position : Nat := base + (diag - lo).toNat
          match layer with
          | AlignmentLayer.Matches => g.matchesL.get? position
          | AlignmentLayer.Inserts => g.insertsL.get? position
          | AlignmentLayer.Deletes => g.deletesL.get? position

/-- `WavefrontGrid::set`.  Outer `none` = panic; out-of-range writes that pass
no bound check are silent no-ops returning the grid unchanged. -/
def set (g : WavefrontGrid) (layer : AlignmentLayer) (score : Nat) (diag : Int)
    (value : Option (Nat × AlignmentLayer)) : Option WavefrontGrid :=
  if score < g.offsets.length then
    match g.diags.get? score with
    | none => none
    | some (lo, hi) =>
      if diag ≥ lo ∧ diag ≤ hi then
        match g.offsets.get? score with
        | none => none
        | some base =>
          let position : Nat := base + (diag - lo).toNat
          match layer with
          | AlignmentLayer.Matches => do
              let m ← setN? g.matchesL position value
              pure { g with matchesL := m }
          | AlignmentLayer.Inserts => do
              let m ← setN? g.insertsL position value
              pure { g with insertsL := m }
          | AlignmentLayer.Deletes => do
              let m ← setN? g.deletesL position value
              pure { g with deletesL := m }
      else some g
  else some g

/-- `WavefrontGrid::get_diag_range` (total in Rust: `Vec::get`). -/
def get_diag_range (g : WavefrontGrid) (score : Nat) : Option (Int × Int) :=
  g.diags.get? score

/-- `WavefrontGrid::increment`.  Outer `none` = panic. -/
def increment (g : WavefrontGrid) (score : Nat) (diag : Int) : Option WavefrontGrid := do
  let base ← g.offsets.get? score
  let (lo, _) ← g.diags.get? score
  let position : Nat := base + ((diag - lo) % (2 : Int) ^ 64).toNat
  let cell ← g.matchesL.get? position
  let newCell := match cell with
    | some (n, direction) => some (n + 1, direction)
    | none => some (1, AlignmentLayer.Matches)
  let m ← setN? g.matchesL position newCell
  pure { g with matchesL := m }

end WavefrontGrid

/-! ## `wavefront_alignment.rs`: the WFA engine

The engine state and its methods.  All cell offsets here are `i32` (`Int`).
Loops are written with explicit recursion; the two unbounded `loop`/`while`
constructs carry a fuel parameter and return `none` when it runs out, which
never happens on the concrete runs evaluated below. -/

/-- `lo..=hi` as a list of `Int` (empty when `lo > hi`). -/
def rangeInts (lo hi : Int) : List Int :=
  (List.range (hi + 1 - lo).toNat).map fun n => lo + (n : Int)

/-- `self.m[i][j] = v` on a two-level vector, `i`/`j` cast `as usize`:
`none` = panic. -/
def setCell2 {α : Type} (m : List (List α)) (i j : Int) (v : α) :
    Option (List (List α)) := do
  let row ← getI? m i
  let row' ← setI? row j v
  setI? m i row'

/-- `WavefrontState` from `wavefront_alignment.rs` (the `query`/`text` string
slices are omitted: only `q_chars`/`t_chars` are ever read). -/
structure WavefrontState : Type where
  q_chars : List Char
  t_chars : List Char
  pens : Penalties
  current_score : Int
  diag_range : List (Int × Int)
  num_diags : Int
  final_diagonal : Int
  highest_diag : Int
  lowest_diag : Int
  matchesL : List (List (Option (Int × AlignmentLayer)))
  insertsL : List (List (Option (Int × AlignmentLayer)))
  deletesL : List (List (Option (Int × AlignmentLayer)))
  deriving DecidableEq, Repr

/-- `new_wavefront_state`.  The single seed write hits index
`0 - lowest_diag = t_chars.len() < num_diags`, always in bounds, so a total
`List.set` is exact. -/
def new_wavefront_state (query text : String) (pens : Penalties) : WavefrontState :=
  let q_chars := query.toList
  let t_chars := text.toList
  let num_diags : Int := (q_chars.length : Int) + (t_chars.length : Int) + 1
  let lowest_diag : Int := 0 - (t_chars.length : Int)
  { q_chars := q_chars
    t_chars := t_chars
    pens := pens
    current_score := 0
    diag_range := [(0, 0)]
    num_diags := num_diags
    final_diagonal := (q_chars.length : Int) - (t_chars.length : Int)
    highest_diag := (q_chars.length : Int)
    lowest_diag := lowest_diag
    matchesL := [(List.replicate num_diags.toNat none).set (0 - lowest_diag).toNat
      (some (0, AlignmentLayer.Matches))]
    insertsL := [List.replicate num_diags.toNat none]
    deletesL := [List.replicate num_diags.toNat none] }

namespace WavefrontState

/-- `WavefrontState::at` (named `wfAt`: `at` is reserved in Lean).  Outer
`none` = panic, `some none` = the method's `None`. -/
def wfAt (st : WavefrontState) (layer : AlignmentLayer) (score diag : Int) :
    Option (Option (Int × AlignmentLayer)) :=
  if score < 0 then some none
  else if score > st.current_score then some none
  else match getI? st.diag_range st.current_score with
    | none => none
    | some r =>
      if diag > min st.highest_diag r.2 ∨ diag < max st.lowest_diag r.1 then some none
      else do
        let row ← getI? (match layer with
          | AlignmentLayer.Matches => st.matchesL
          | AlignmentLayer.Inserts => st.insertsL
          | AlignmentLayer.Deletes => st.deletesL) score
        getI? row (diag - st.lowest_diag)

/-- `WavefrontState::increment_score`. -/
def increment_score (st : WavefrontState) : WavefrontState :=
  { st with current_score := st.current_score + 1 }

/-- `WavefrontState::increment`. -/
def increment (st : WavefrontState) (diagonal : Int) : Option WavefrontState := do
  let cur ← st.wfAt AlignmentLayer.Matches st.current_score diagonal
  let newCell := match cur with
    | some (score, layer) => some (score + 1, layer)
    | none => some (1, AlignmentLayer.Matches)
  let m ← setCell2 st.matchesL st.current_score (diagonal - st.lowest_diag) newCell
  pure { st with matchesL := m }

/-- The inner `while` of `WavefrontState::extend` along one diagonal.
`Vec::get` on a negative position reinterpreted `as usize` yields `None`
(handled by the `_ => break` arm), which `getI?` models. -/
def extendDiagLoop (st : WavefrontState) (diag : Int) (fuel : Nat)
    (query_pos text_pos : Int) : Option WavefrontState :=
  match fuel with
  | 0 => none
  | fuel + 1 =>
    if query_pos < (st.q_chars.length : Int) ∧ text_pos < (st.t_chars.length : Int) then
      match getI? st.q_chars query_pos, getI? st.t_chars text_pos with
      | some q, some t =>
        if q = t then do
          let st' ← st.increment diag
          extendDiagLoop st' diag fuel (query_pos + 1) (text_pos + 1)
        else pure st
      | _, _ => pure st
    else pure st

/-- The `for diag in lowest_diag..=highest_diag` body of `extend`. -/
def extendLoop (st : WavefrontState) : List Int → Option WavefrontState
  | [] => pure st
  | diag :: rest => do
    let v ← st.wfAt AlignmentLayer.Matches st.current_score diag
    match v with
    | none => extendLoop st rest
    | some (val, _) => do
      let st' ← extendDiagLoop st diag (st.t_chars.length + 1) (val + diag) val
      extendLoop st' rest

/-- `WavefrontState::extend`. -/
def extend (st : WavefrontState) : Option WavefrontState := do
  let r ← getI? st.diag_range st.current_score
  extendLoop st (rangeInts r.1 r.2)

/-- `WavefrontState::is_finished`. -/
def is_finished (st : WavefrontState) : Option Bool := do
  let v ← st.wfAt AlignmentLayer.Matches st.current_score st.final_diagonal
  pure (match v with
    | some (score, _) => decide (score ≥ (st.t_chars.length : Int))
    | none => false)

end WavefrontState

/-- The `hi`/`lo` computation at the head of `WavefrontState::next`.
`diag_range.get((..) as usize)` is `Vec::get`: `none` for a negative or
out-of-range predecessor score, defaulted to `(0, 0)` by `unwrap_or`. -/
def next_range (diag_range : List (Int × Int)) (current_score : Int)
    (pens : Penalties) (highest_diag lowest_diag : Int) : Int × Int :=
  let g1 := getI? diag_range (current_score - pens.mismatch_pen)
  let g2 := getI? diag_range (current_score - pens.open_pen - pens.extd_pen)
  let g3 := getI? diag_range (current_score - pens.extd_pen)
  let hi0 := 1 + max (max (max (g1.getD (0, 0)).2 (g2.getD (0, 0)).2)
    (g3.getD (0, 0)).2) highest_diag
  let hi := if hi0 > highest_diag then highest_diag else hi0
  let lo0 := min (min (min (g1.getD (0, 0)).1 (g2.getD (0, 0)).1)
    (g3.getD (0, 0)).1 - 1) lowest_diag
  let lo := if lo0 < lowest_diag then lowest_diag else lo0
  (lo, hi)

/-- The `(None, None) => ()` to `(Some, Some)` match of `update_ins`:
computes the cell to store (`none` = no write). -/
def update_ins_value (x y : Option (Int × AlignmentLayer)) :
    Option (Int × AlignmentLayer) :=
  match x, y with
  | none, none => none
  | some x, none => some (x.1, AlignmentLayer.Matches)
  | none, some y => some (y.1, AlignmentLayer.Inserts)
  | some x, some y =>
    if x.1 > y.1 then some (x.1, AlignmentLayer.Matches)
    else some (y.1, AlignmentLayer.Inserts)

/-- The match of `update_del` (offsets shifted by one as in the source). -/
def update_del_value (x y : Option (Int × AlignmentLayer)) :
    Option (Int × AlignmentLayer) :=
  match x, y with
  | none, none => none
  | some x, none => some (x.1 + 1, AlignmentLayer.Matches)
  | none, some y => some (y.1 + 1, AlignmentLayer.Deletes)
  | some x, some y =>
    if x.1 > y.1 then some (x.1 + 1, AlignmentLayer.Matches)
    else some (y.1 + 1, AlignmentLayer.Deletes)

/-- The eight-arm match of `update_mat`.  Note the source's
`(Some(x), Some(y), Some(z))` arm: when `x.0 + 1 >= y.0` but `x.0 + 1 < z.0`
it stores `(z.0, Inserts)` — the deletes offset with the `Inserts` tag. -/
def update_mat_value (x y z : Option (Int × AlignmentLayer)) :
    Option (Int × AlignmentLayer) :=
  match x, y, z with
  | none, none, none => none
  | some x, none, none => some (x.1 + 1, AlignmentLayer.Matches)
  | none, some y, none => some (y.1, AlignmentLayer.Inserts)
  | none, none, some z => some (z.1, AlignmentLayer.Deletes)
  | some x, some y, none =>
    if x.1 + 1 ≥ y.1 then some (x.1 + 1, AlignmentLayer.Matches)
    else some (y.1, AlignmentLayer.Inserts)
  | some x, none, some z =>
    if x.1 + 1 ≥ z.1 then some (x.1 + 1, AlignmentLayer.Matches)
    else some (z.1, AlignmentLayer.Deletes)
  | none, some y, some z =>
    if y.1 > z.1 then some (y.1, AlignmentLayer.Inserts)
    else some (z.1, AlignmentLayer.Deletes)
  | some x, some y, some z =>
    if x.1 + 1 ≥ y.1 then
      if x.1 + 1 ≥ z.1 then some (x.1 + 1, AlignmentLayer.Matches)
      else some (z.1, AlignmentLayer.Inserts)
    else
      if y.1 > z.1 then some (y.1, AlignmentLayer.Inserts)
      else some (z.1, AlignmentLayer.Deletes)

namespace WavefrontState

/-- `WavefrontState::update_ins`. -/
def update_ins (st : WavefrontState) (diag : Int) : Option WavefrontState := do
  let x ← st.wfAt AlignmentLayer.Matches
    (st.current_score - st.pens.open_pen - st.pens.extd_pen) (diag - 1)
  let y ← st.wfAt AlignmentLayer.Inserts
    (st.current_score - st.pens.extd_pen) (diag - 1)
  match update_ins_value x y with
  | none => pure st
  | some v => do
    let m ← setCell2 st.insertsL st.current_score (diag - st.lowest_diag) (some v)
    pure { st with insertsL := m }

/-- `WavefrontState::update_del`. -/
def update_del (st : WavefrontState) (diag : Int) : Option WavefrontState := do
  let x ← st.wfAt AlignmentLayer.Matches
    (st.current_score - st.pens.open_pen - st.pens.extd_pen) (diag + 1)
  let y ← st.wfAt AlignmentLayer.Deletes
    (st.current_score - st.pens.extd_pen) (diag + 1)
  match update_del_value x y with
  | none => pure st
  | some v => do
    let m ← setCell2 st.deletesL st.current_score (diag - st.lowest_diag) (some v)
    pure { st with deletesL := m }

/-- `WavefrontState::update_mat` (always assigns, possibly `None`). -/
def update_mat (st : WavefrontState) (diag : Int) : Option WavefrontState := do
  let x ← st.wfAt AlignmentLayer.Matches
    (st.current_score - st.pens.mismatch_pen) diag
  let y ← st.wfAt AlignmentLayer.Inserts st.current_score diag
  let z ← st.wfAt AlignmentLayer.Deletes st.current_score diag
  let m ← setCell2 st.matchesL st.current_score (diag - st.lowest_diag)
    (update_mat_value x y z)
  pure { st with matchesL := m }

/-- The `for diag in lo..=hi` body of `next`. -/
def nextLoop (st : WavefrontState) : List Int → Option WavefrontState
  | [] => pure st
  | diag :: rest => do
    let st ← st.update_ins diag
    let st ← st.update_del diag
    let st ← st.update_mat diag
    nextLoop st rest

/-- `WavefrontState::next`. -/
def next (st : WavefrontState) : Option WavefrontState := do
  let (lo, hi) := next_range st.diag_range st.current_score st.pens
    st.highest_diag st.lowest_diag
  let st := { st with
    diag_range := st.diag_range ++ [(lo, hi)]
    matchesL := st.matchesL ++ [List.replicate st.num_diags.toNat none]
    insertsL := st.insertsL ++ [List.replicate st.num_diags.toNat none]
    deletesL := st.deletesL ++ [List.replicate st.num_diags.toNat none] }
  nextLoop st (rangeInts lo hi)

end WavefrontState

/-! ### `WavefrontState::backtrace`

The three `while current_char > …` emission loops run exactly
`(current_char - target).toNat` times, so they recurse on that count.
The outer `while curr_score > 0` takes a fuel; a `matches` cell that is
`None` (which loops forever in Rust) and an `inserts`/`deletes` cell whose
predecessor tag can fire neither `if let` (ditto) simply exhaust the fuel. -/

namespace WavefrontState

/-- One emission run: push `q_chars[(cc + k - 1) as usize]` and
`t_chars[(cc - 1) as usize]` for `cc` counting down. -/
def emitRun (st : WavefrontState) (k : Int) : Nat → Int → List Char → List Char →
    Option (List Char × List Char)
  | 0, _, qa, ta => some (qa, ta)
  | n + 1, cc, qa, ta => do
    let qc ← getI? st.q_chars (cc + k - 1)
    let tc ← getI? st.t_chars (cc - 1)
    st.emitRun k n (cc - 1) (qa ++ [qc]) (ta ++ [tc])

/-- The `while curr_score > 0` loop of `backtrace`; returns the final
`(curr_score, curr_layer)` together with the two pushed-char buffers. -/
def backtraceLoop (st : WavefrontState) : Nat → Int → Int → AlignmentLayer →
    List Char → List Char → Option (Int × AlignmentLayer × List Char × List Char)
  | 0, _, _, _, _, _ => none
  | fuel + 1, curr_score, curr_diag, curr_layer, qa, ta =>
    if curr_score > 0 then
      match curr_layer with
      | AlignmentLayer.Matches => do
        let row ← getI? st.matchesL curr_score
        let cellOpt ← getI? row (curr_diag - st.lowest_diag)
        match cellOpt with
        | some (score, direction) =>
          match direction with
          | AlignmentLayer.Inserts => do
            let irow ← getI? st.insertsL curr_score
            let icellOpt ← getI? irow (curr_diag - st.lowest_diag)
            let icell ← icellOpt
            let (qa, ta) ← st.emitRun curr_diag (score - icell.1).toNat score qa ta
            st.backtraceLoop fuel curr_score curr_diag AlignmentLayer.Inserts qa ta
          | AlignmentLayer.Deletes => do
            let drow ← getI? st.deletesL curr_score
            let dcellOpt ← getI? drow (curr_diag - st.lowest_diag)
            let dcell ← dcellOpt
            let (qa, ta) ← st.emitRun curr_diag (score - dcell.1).toNat score qa ta
            st.backtraceLoop fuel curr_score curr_diag AlignmentLayer.Deletes qa ta
          | AlignmentLayer.Matches => do
            let curr_score' := curr_score - st.pens.mismatch_pen
            let mrow ← getI? st.matchesL curr_score'
            let mcellOpt ← getI? mrow (curr_diag - st.lowest_diag)
            let mcell ← mcellOpt
            let (qa, ta) ← st.emitRun curr_diag (score - mcell.1).toNat score qa ta
            st.backtraceLoop fuel curr_score' curr_diag AlignmentLayer.Matches qa ta
        | none => st.backtraceLoop fuel curr_score curr_diag curr_layer qa ta
      | AlignmentLayer.Inserts => do
        let irow ← getI? st.insertsL curr_score
        let icellOpt ← getI? irow (curr_diag - st.lowest_diag)
        let cell ← icellOpt
        match cell.2 with
        | AlignmentLayer.Matches => do
          let prow ← getI? st.matchesL (st.pens.extd_pen + st.pens.open_pen
            |> (curr_score - ·))
          let pcellOpt ← getI? prow (curr_diag - st.lowest_diag - 1)
          let prev ← pcellOpt
          let qc ← getI? st.q_chars (prev.1 + curr_diag - 1)
          st.backtraceLoop fuel (curr_score - (st.pens.extd_pen + st.pens.open_pen))
            (curr_diag - 1) AlignmentLayer.Matches (qa ++ [qc]) (ta ++ ['-'])
        | AlignmentLayer.Inserts => do
          let prow ← getI? st.insertsL (curr_score - st.pens.extd_pen)
          let pcellOpt ← getI? prow (curr_diag - st.lowest_diag - 1)
          let prev ← pcellOpt
          let qc ← getI? st.q_chars (prev.1 + curr_diag - 1)
          st.backtraceLoop fuel (curr_score - st.pens.extd_pen)
            (curr_diag - 1) AlignmentLayer.Inserts (qa ++ [qc]) (ta ++ ['-'])
        | AlignmentLayer.Deletes =>
          st.backtraceLoop fuel curr_score curr_diag AlignmentLayer.Inserts qa ta
      | AlignmentLayer.Deletes => do
        let drow ← getI? st.deletesL curr_score
        let dcellOpt ← getI? drow (curr_diag - st.lowest_diag)
        let cell ← dcellOpt
        match cell.2 with
        | AlignmentLayer.Matches => do
          let prow ← getI? st.matchesL (st.pens.extd_pen + st.pens.open_pen
            |> (curr_score - ·))
          let pcellOpt ← getI? prow (curr_diag - st.lowest_diag + 1)
          let prev ← pcellOpt
          let tc ← getI? st.t_chars prev.1
          st.backtraceLoop fuel (curr_score - (st.pens.extd_pen + st.pens.open_pen))
            (curr_diag + 1) AlignmentLayer.Matches (qa ++ ['-']) (ta ++ [tc])
        | AlignmentLayer.Deletes => do
          let prow ← getI? st.deletesL (curr_score - st.pens.extd_pen)
          let pcellOpt ← getI? prow (curr_diag - st.lowest_diag + 1)
          let prev ← pcellOpt
          let tc ← getI? st.t_chars prev.1
          st.backtraceLoop fuel (curr_score - st.pens.extd_pen)
            (curr_diag + 1) AlignmentLayer.Deletes (qa ++ ['-']) (ta ++ [tc])
        | AlignmentLayer.Inserts =>
          st.backtraceLoop fuel curr_score curr_diag AlignmentLayer.Deletes qa ta
    else some (curr_score, curr_layer, qa, ta)

/-- `WavefrontState::backtrace`.  The prefix epilogue slices
`q_chars[..remaining]`, which panics when `remaining > q_chars.len()` (and
`remaining` is a negative offset cast `as usize`). -/
def backtrace (st : WavefrontState) : Option AlignResult := do
  let fuel : Nat := 2 * st.current_score.toNat + 4
  let (fs, flayer, qa, ta) ← st.backtraceLoop fuel st.current_score
    st.final_diagonal AlignmentLayer.Matches [] []
  let (qa, ta) ←
    match flayer with
    | AlignmentLayer.Matches =>
      if fs = 0 then do
        let row ← getI? st.matchesL 0
        let cellOpt ← getI? row (0 - st.lowest_diag)
        let cell ← cellOpt
        if cell.1 < 0 then none
        else
          let remaining := cell.1.toNat
          if remaining > st.q_chars.length ∨ remaining > st.t_chars.length then none
          else if remaining > 0 then
            pure (qa ++ (st.q_chars.take remaining).reverse,
              ta ++ (st.t_chars.take remaining).reverse)
          else pure (qa, ta)
      else pure (qa, ta)
    | _ => pure (qa, ta)
  pure (AlignResult.Res
    { score := st.current_score
      query_aligned := String.mk qa.reverse
      text_aligned := String.mk ta.reverse })

end WavefrontState

/-- The `loop { extend; is_finished?; increment_score; next }` of
`wavefront_align`, with fuel. -/
def wavefrontMainLoop : Nat → WavefrontState → Option AlignResult
  | 0, _ => none
  | fuel + 1, st => do
    let st ← st.extend
    let fin ← st.is_finished
    if fin then st.backtrace
    else do
      let st := st.increment_score
      let st ← st.next
      wavefrontMainLoop fuel st

/-- `wavefront_align` from `wavefront_alignment.rs`.  The entry guards use
`query.is_empty()` and `query.len() > text.len()`, and Rust's `str::len` is
the UTF-8 **byte** length (`String.utf8ByteSize`), not the character count —
the two differ on non-ASCII input.  The engine itself then works on
`chars().collect()` vectors, i.e. characters.  The main-loop fuel is an
upper bound on the terminating score plus slack; it is a modelling artifact
and generous for every concrete run below. -/
def wavefront_align (query text : String) (pens : Penalties) : Option AlignResult :=
  if query.utf8ByteSize = 0 ∨ text.utf8ByteSize = 0 then
    some (AlignResult.Error AlignmentError.ZeroLength)
  else if query.utf8ByteSize > text.utf8ByteSize then
    some (AlignResult.Error AlignmentError.QueryTooLong)
  else
    let fuel : Nat := (pens.mismatch_pen.toNat + pens.open_pen.toNat +
      pens.extd_pen.toNat + 2) * (query.length + text.length + 2) + 2
    wavefrontMainLoop fuel (new_wavefront_state query text pens)

/-! ## `validation_lib.rs`: score recomputation -/

/-- One column step of `compute_score_from_alignment`. -/
def scoreStep (pens : Penalties) (acc : Int × AlignmentLayer) (c : Char × Char) :
    Int × AlignmentLayer :=
  if c.1 = '-' then
    (acc.1 + pens.extd_pen +
      (match acc.2 with
        | AlignmentLayer.Deletes => 0
        | _ => pens.open_pen), AlignmentLayer.Deletes)
  else if c.2 = '-' then
    (acc.1 + pens.extd_pen +
      (match acc.2 with
        | AlignmentLayer.Inserts => 0
        | _ => pens.open_pen), AlignmentLayer.Inserts)
  else
    (if c.1 ≠ c.2 then acc.1 + pens.mismatch_pen else acc.1, AlignmentLayer.Matches)

/-- `compute_score_from_alignment` from `validation_lib.rs`: walk the zipped
columns left to right tracking the current layer. -/
def compute_score_from_alignment (alignment : Alignment) (pens : Penalties) : Int :=
  ((alignment.query_aligned.toList.zip alignment.text_aligned.toList).foldl
    (scoreStep pens) (0, AlignmentLayer.Matches)).1

/-! ## `reference.rs`: the gap-affine DP oracle -/

/-- One DP cell of the reference aligner: `(Option<i32>, Option<AlignmentLayer>)`. -/
def RefCell : Type := Option Int × Option AlignmentLayer

instance : DecidableEq RefCell := instDecidableEqProd

/-- One DP matrix of the reference aligner. -/
def RefMat : Type := List (List RefCell)

/-- `m[i][j]` read on a reference matrix: `none` = panic. -/
def mgetC (m : RefMat) (i j : Nat) : Option RefCell :=
  (m.get? i).bind fun row => row.get? j

/-- `m[i][j] = v` on a reference matrix: `none` = panic. -/
def msetC (m : RefMat) (i j : Nat) (v : RefCell) : Option RefMat := do
  let row ← m.get? i
  let row' ← setN? row j v
  setN? m i row'

/-- `AlignMat` from `reference.rs` (fields suffixed: `matches` is reserved). -/
structure AlignMat : Type where
  insertsM : RefMat
  matchesM : RefMat
  deletesM : RefMat

/-- The `for i in 2..a_length` border loop of `new_mat` over the first
column of `inserts` (mirrored into `matches`). -/
def borderColLoop (extd : Int) : RefMat → RefMat → List Nat → Option (RefMat × RefMat)
  | ins, mat, [] => some (ins, mat)
  | ins, mat, i :: rest => do
    let prev ← mgetC ins (i - 1) 0
    let v ← prev.1
    let ins' ← msetC ins i 0 (some (v + extd), some AlignmentLayer.Inserts)
    let copied ← mgetC ins' i 0
    let mat' ← msetC mat i 0 copied
    borderColLoop extd ins' mat' rest

/-- The `for i in 2..b_length` border loop of `new_mat` over the first
row of `deletes` (mirrored into `matches`). -/
def borderRowLoop (extd : Int) : RefMat → RefMat → List Nat → Option (RefMat × RefMat)
  | del, mat, [] => some (del, mat)
  | del, mat, j :: rest => do
    let prev ← mgetC del 0 (j - 1)
    let v ← prev.1
    let del' ← msetC del 0 j (some (v + extd), some AlignmentLayer.Deletes)
    let copied ← mgetC del' 0 j
    let mat' ← msetC mat 0 j copied
    borderRowLoop extd del' mat' rest

/-- `new_mat` from `reference.rs`.  `a_length = a.len() + 1` uses the UTF-8
**byte** length (Rust `str::len`), while `affine_gap_mat`'s fill loops run
over `chars_a.len()` (characters) — on non-ASCII inputs the matrices are
larger than the filled region.  The unconditional `inserts[1][0]` write
panics when `a` is empty (`a_length = 1`), and `deletes[0][1]` when `b` is
empty. -/
def new_mat (a b : String) (pens : Penalties) : Option AlignMat := do
  let a_length := a.utf8ByteSize + 1
  let b_length := b.utf8ByteSize + 1
  let emptyCell : RefCell := (none, none)
  let inserts : RefMat := List.replicate a_length (List.replicate b_length emptyCell)
  let matches0 : RefMat := List.replicate a_length (List.replicate b_length emptyCell)
  let deletes : RefMat := List.replicate a_length (List.replicate b_length emptyCell)
  let matches1 ← msetC matches0 0 0 (some 0, none)
  let firstIns : RefCell :=
    (some (pens.extd_pen + pens.open_pen), some AlignmentLayer.Matches)
  let inserts1 ← msetC inserts 1 0 firstIns
  let copied ← mgetC inserts1 1 0
  let matches2 ← msetC matches1 1 0 copied
  let (inserts2, matches3) ← borderColLoop pens.extd_pen inserts1 matches2
    (List.range' 2 (a_length - 2))
  let firstDel : RefCell :=
    (some (pens.extd_pen + pens.open_pen), some AlignmentLayer.Matches)
  let deletes1 ← msetC deletes 0 1 firstDel
  let copiedD ← mgetC deletes1 0 1
  let matches4 ← msetC matches3 0 1 copiedD
  let (deletes2, matches5) ← borderRowLoop pens.extd_pen deletes1 matches4
    (List.range' 2 (b_length - 2))
  pure { insertsM := inserts2, matchesM := matches5, deletesM := deletes2 }

/-- The `result.inserts[i][j] = match …` statement of `affine_gap_mat`
(`none` = the `(None, None)` panic). -/
def refInsValue (pens : Penalties) (up mup : Option Int) : Option RefCell :=
  match up, mup with
  | some a, some b =>
    if min (a + pens.extd_pen) (b + pens.extd_pen + pens.open_pen) = a + pens.extd_pen
    then some (some (a + pens.extd_pen), some AlignmentLayer.Inserts)
    else some (some (b + pens.extd_pen + pens.open_pen), some AlignmentLayer.Matches)
  | some a, none => some (some (a + pens.extd_pen), some AlignmentLayer.Inserts)
  | none, some a => some (some (a + pens.extd_pen + pens.open_pen), some AlignmentLayer.Matches)
  | none, none => none

/-- The `result.deletes[i][j] = match …` statement of `affine_gap_mat`. -/
def refDelValue (pens : Penalties) (left mleft : Option Int) : Option RefCell :=
  match left, mleft with
  | some a, some b =>
    if min (a + pens.extd_pen) (b + pens.extd_pen + pens.open_pen) = a + pens.extd_pen
    then some (some (a + pens.extd_pen), some AlignmentLayer.Deletes)
    else some (some (b + pens.extd_pen + pens.open_pen), some AlignmentLayer.Matches)
  | some a, none => some (some (a + pens.extd_pen), some AlignmentLayer.Deletes)
  | none, some a => some (some (a + pens.extd_pen + pens.open_pen), some AlignmentLayer.Matches)
  | none, none => none

/-- The `result.matches[i][j] = match …` statement of `affine_gap_mat`:
arguments are `matches[i-1][j-1].0`, `deletes[i][j].0`, `inserts[i][j].0`. -/
def refMatValue (mismatch : Int) (diagv delv insv : Option Int) : Option RefCell :=
  match diagv, delv, insv with
  | some a, some b, some c =>
    if a + mismatch < b then
      if a + mismatch < c then some (some (a + mismatch), some AlignmentLayer.Matches)
      else some (some c, some AlignmentLayer.Inserts)
    else if b ≤ c then some (some b, some AlignmentLayer.Deletes)
    else some (some c, some AlignmentLayer.Inserts)
  | some a, some b, none =>
    if a + mismatch < b then some (some (a + mismatch), some AlignmentLayer.Matches)
    else some (some b, some AlignmentLayer.Deletes)
  | some a, none, some c =>
    if a + mismatch < c then some (some (a + mismatch), some AlignmentLayer.Matches)
    else some (some c, some AlignmentLayer.Inserts)
  | none, some b, some c =>
    if b < c then some (some b, some AlignmentLayer.Deletes)
    else some (some c, some AlignmentLayer.Inserts)
  | some a, none, none => some (some (a + mismatch), some AlignmentLayer.Matches)
  | none, some b, none => some (some b, some AlignmentLayer.Deletes)
  | none, none, some c => some (some c, some AlignmentLayer.Inserts)
  | none, none, none => none

/-- One `(i, j)` iteration of `affine_gap_mat`'s nested loops. -/
def fillCell (ca cb : List Char) (pens : Penalties) (m : AlignMat) (i j : Nat) :
    Option AlignMat := do
  let insUp ← mgetC m.insertsM (i - 1) j
  let matUp ← mgetC m.matchesM (i - 1) j
  let insCell ← refInsValue pens insUp.1 matUp.1
  let inserts' ← msetC m.insertsM i j insCell
  let delLeft ← mgetC m.deletesM i (j - 1)
  let matLeft ← mgetC m.matchesM i (j - 1)
  let delCell ← refDelValue pens delLeft.1 matLeft.1
  let deletes' ← msetC m.deletesM i j delCell
  let qc ← getN? ca (i - 1)
  let tc ← getN? cb (j - 1)
  let mismatch : Int := if qc = tc then 0 else pens.mismatch_pen
  let matDiag ← mgetC m.matchesM (i - 1) (j - 1)
  let matCell ← refMatValue mismatch matDiag.1 delCell.1 insCell.1
  let matches' ← msetC m.matchesM i j matCell
  pure { insertsM := inserts', matchesM := matches', deletesM := deletes' }

/-- The inner `for j in 1..b_length` loop of `affine_gap_mat`. -/
def fillColsLoop (ca cb : List Char) (pens : Penalties) (i : Nat) :
    AlignMat → List Nat → Option AlignMat
  | m, [] => some m
  | m, j :: rest => do
    let m' ← fillCell ca cb pens m i j
    fillColsLoop ca cb pens i m' rest

/-- The outer `for i in 1..a_length` loop of `affine_gap_mat`. -/
def fillRowsLoop (ca cb : List Char) (pens : Penalties) (blen : Nat) :
    AlignMat → List Nat → Option AlignMat
  | m, [] => some m
  | m, i :: rest => do
    let m' ← fillColsLoop ca cb pens i m (List.range' 1 blen)
    fillRowsLoop ca cb pens blen m' rest

/-- `affine_gap_mat` from `reference.rs`. -/
def affine_gap_mat (a b : String) (pens : Penalties) : Option AlignMat := do
  let m ← new_mat a b pens
  fillRowsLoop a.toList b.toList pens b.length m (List.range' 1 a.length)

/-- The `while (a_pos > 0) || (b_pos > 0)` loop of `trace_back`.  Every
iteration either decrements `a_pos + b_pos` or switches the layer away from
`Matches`, so fuel `2 * (a_pos + b_pos) + 1` always suffices. -/
def traceLoop (ca cb : List Char) (m : AlignMat) : Nat → Nat → Nat →
    AlignmentLayer → List Char → List Char → Option (List Char × List Char)
  | 0, _, _, _, _, _ => none
  | fuel + 1, a_pos, b_pos, layer, qa, ta =>
    if a_pos > 0 ∨ b_pos > 0 then
      if a_pos = 0 then do
        let tc ← getN? cb (b_pos - 1)
        traceLoop ca cb m fuel a_pos (b_pos - 1) layer (qa ++ ['-']) (ta ++ [tc])
      else if b_pos = 0 then do
        let qc ← getN? ca (a_pos - 1)
        traceLoop ca cb m fuel (a_pos - 1) b_pos layer (qa ++ [qc]) (ta ++ ['-'])
      else
        match layer with
        | AlignmentLayer.Inserts => do
          let qc ← getN? ca (a_pos - 1)
          let cell ← mgetC m.insertsM a_pos b_pos
          let layer' := match cell.2 with
            | some AlignmentLayer.Matches => AlignmentLayer.Matches
            | _ => AlignmentLayer.Inserts
          traceLoop ca cb m fuel (a_pos - 1) b_pos layer' (qa ++ [qc]) (ta ++ ['-'])
        | AlignmentLayer.Matches => do
          let cell ← mgetC m.matchesM a_pos b_pos
          match cell.2 with
          | some AlignmentLayer.Matches => do
            let qc ← getN? ca (a_pos - 1)
            let tc ← getN? cb (b_pos - 1)
            traceLoop ca cb m fuel (a_pos - 1) (b_pos - 1) AlignmentLayer.Matches
              (qa ++ [qc]) (ta ++ [tc])
          | some AlignmentLayer.Inserts =>
            traceLoop ca cb m fuel a_pos b_pos AlignmentLayer.Inserts qa ta
          | some AlignmentLayer.Deletes =>
            traceLoop ca cb m fuel a_pos b_pos AlignmentLayer.Deletes qa ta
          | none => none
        | AlignmentLayer.Deletes => do
          let tc ← getN? cb (b_pos - 1)
          let cell ← mgetC m.deletesM a_pos b_pos
          let layer' := match cell.2 with
            | some AlignmentLayer.Matches => AlignmentLayer.Matches
            | _ => AlignmentLayer.Deletes
          traceLoop ca cb m fuel a_pos (b_pos - 1) layer' (qa ++ ['-']) (ta ++ [tc])
    else some (qa, ta)

/-- `trace_back` from `reference.rs`.  `a_pos`/`b_pos` start at
`a.len()`/`b.len()` — UTF-8 **byte** lengths — while `a_chars`/`b_chars` are
character vectors; on non-ASCII inputs the initial score cell lies outside
the filled (character-indexed) region and its `.0.unwrap()` panics.  The
only exit is `Ok(result)`. -/
def trace_back (m : AlignMat) (a b : String) : Option (Except AlignmentError Alignment) := do
  let scoreCell ← mgetC m.matchesM a.utf8ByteSize b.utf8ByteSize
  let score ← scoreCell.1
  let fuel := 2 * (a.utf8ByteSize + b.utf8ByteSize) + 2
  let (qa, ta) ← traceLoop a.toList b.toList m fuel a.utf8ByteSize b.utf8ByteSize
    AlignmentLayer.Matches [] []
  pure (Except.ok
    { score := score
      query_aligned := String.mk qa.reverse
      text_aligned := String.mk ta.reverse })

/-- `affine_gap_align` from `reference.rs`. -/
def affine_gap_align (a b : String) (pens : Penalties) :
    Option (Except AlignmentError Alignment) := do
  let m ← affine_gap_mat a b pens
  trace_back m a b

/-! ## Spec-side definition for the `next` range (claim C5)

The specification's words for the score-expansion range, used as the
refinement target to compare with `next_range` above. -/

/-- Modelled from the spec, §4.2 "`next` — score expansion": take the three
predecessor scores `s - mismatch`, `s - open - extend`, `s - extend`;
a predecessor score that is negative or unallocated is skipped (contributes
nothing); `hi = min(1 + max of their hi, highest_diag)`,
`lo = max(-1 + min of their lo, lowest_diag)`.  Returns `none` when every
predecessor is skipped (the spec leaves that case undefined). -/
def spec_next_range (diag_range : List (Int × Int)) (current_score : Int)
    (pens : Penalties) (highest_diag lowest_diag : Int) : Option (Int × Int) :=
  let preds := [current_score - pens.mismatch_pen,
    current_score - pens.open_pen - pens.extd_pen,
    current_score - pens.extd_pen]
  let ranges := preds.filterMap fun s =>
    if s < 0 then none else diag_range.get? s.toNat
  match ranges with
  | [] => none
  | r :: rs =>
    let hiMax := (rs.map Prod.snd).foldl max r.2
    let loMin := (rs.map Prod.fst).foldl min r.1
    some (max (loMin - 1) lowest_diag, min (1 + hiMax) highest_diag)

/-! ## Claim theorems: C2, C4, C5, C6 -/

/-- Claim C2 (status code_bug): score-alignment consistency fails for the
engine.  On `query = "BB"`, `text = "ABAA"`, penalties `(mismatch, open,
extend) = (3, 1, 1)`, `wavefront_align` reports score 6 with the aligned pair
`("---BB", "ABA-A")`, but recomputing the score of that column pattern with
`compute_score_from_alignment` gives 9, not 6. -/
theorem C2_wavefront_score_recompute_mismatch :
    wavefront_align "BB" "ABAA" ⟨3, 1, 1⟩ =
      some (AlignResult.Res ⟨6, "---BB", "ABA-A"⟩) ∧
    compute_score_from_alignment ⟨6, "---BB", "ABA-A"⟩ ⟨3, 1, 1⟩ = 9 ∧
    (9 : Int) ≠ 6 := by
  refine ⟨by decide, by decide, by decide⟩

/-- Claim C4 (status code_bug): `get`/`set` do not "never fail".  On a fresh
grid (one allocated score layer, `offsets = [0, 1]`), `get` at score 1 passes
the `score >= offsets.len()` test (`offsets` carries the sentinel, so its
length is one more than the number of layers) and then panics indexing
`self.diags[1]`; `set` panics the same way.  Outer `none` is the panic. -/
theorem C4_grid_get_set_panic :
    WavefrontGrid.get new_wavefront_grid AlignmentLayer.Matches 1 0 = none ∧
    WavefrontGrid.set new_wavefront_grid AlignmentLayer.Matches 1 0 none = none := by
  refine ⟨by decide, by decide⟩

/-- Claim C5, counterexample: at the state reached by the engine on
`query = "CAT"`, `text = "CATS"`, penalties `(1, 1, 1)` at score 1 (layer 0
spans diagonal 0 only, `highest_diag = 3`, `lowest_diag = -4`), the spec's
range formula gives `(lo, hi) = (-1, 1)` but the code's `next` computes
`(-4, 3)`: absent predecessors are defaulted to `(0, 0)` instead of skipped,
and `hi` is `1 + max(…, highest_diag)` clamped, i.e. always `highest_diag`. -/
theorem C5_next_range_counterexample :
    next_range [(0, 0)] 1 ⟨1, 1, 1⟩ 3 (-4) = (-4, 3) ∧
    spec_next_range [(0, 0)] 1 ⟨1, 1, 1⟩ 3 (-4) = some (-1, 1) ∧
    ((-4 : Int), (3 : Int)) ≠ ((-1 : Int), (1 : Int)) := by
  refine ⟨by decide, by decide, by decide⟩

/-- Claim C5, amended: the code's `next` always expands to the full diagonal
range.  `hi` is computed as `1 + max(…, highest_diag)` and then clamped down
to `highest_diag`, so it equals `highest_diag`; `lo` is
`min(… - 1, lowest_diag)` clamped up to `lowest_diag`, so it equals
`lowest_diag`; missing predecessor scores contribute the `unwrap_or` default
`(0, 0)` rather than being skipped (visible in the `(lowest_diag,
highest_diag)` result form, which ignores the predecessor ranges entirely). -/
theorem C5_next_range_amended (diag_range : List (Int × Int)) (current_score : Int)
    (pens : Penalties) (highest_diag lowest_diag : Int) :
    next_range diag_range current_score pens highest_diag lowest_diag =
      (lowest_diag, highest_diag) := by
  unfold next_range
  set A := max (max (max
    ((getI? diag_range (current_score - pens.mismatch_pen)).getD (0, 0)).2
    ((getI? diag_range (current_score - pens.open_pen - pens.extd_pen)).getD (0, 0)).2)
    ((getI? diag_range (current_score - pens.extd_pen)).getD (0, 0)).2) highest_diag with hA
  have hA' : highest_diag ≤ A := by rw [hA]; exact le_max_right _ _
  simp only [if_pos (by omega : 1 + A > highest_diag)]
  set B := min (min (min
    ((getI? diag_range (current_score - pens.mismatch_pen)).getD (0, 0)).1
    ((getI? diag_range (current_score - pens.open_pen - pens.extd_pen)).getD (0, 0)).1)
    ((getI? diag_range (current_score - pens.extd_pen)).getD (0, 0)).1 - 1) lowest_diag with hB
  have hB' : B ≤ lowest_diag := by rw [hB]; exact min_le_right _ _
  by_cases h : B < lowest_diag
  · simp only [if_pos h]
  · simp only [if_neg h]
    have : B = lowest_diag := le_antisymm hB' (by omega)
    rw [this]

/-- Claim C6, counterexample: a tie between the open and extend candidates is
stored with the extend tag, not `Matches` — `update_ins_value` on equal
offsets 1/1 stores `(1, Inserts)` and `update_del_value` stores
`(2, Deletes)`; and in the all-present match recurrence with candidates
mismatch 0+1, insert 1, delete 3, the code stores `(3, Inserts)` — the
deletes offset under the `Inserts` tag, violating both the claimed
`Matches > Deletes > Inserts` priority and the claimed offset/tag pairing. -/
theorem C6_tie_break_counterexample :
    update_ins_value (some (1, AlignmentLayer.Matches)) (some (1, AlignmentLayer.Inserts)) =
      some (1, AlignmentLayer.Inserts) ∧
    update_del_value (some (1, AlignmentLayer.Matches)) (some (1, AlignmentLayer.Deletes)) =
      some (2, AlignmentLayer.Deletes) ∧
    update_mat_value (some (0, AlignmentLayer.Matches)) (some (1, AlignmentLayer.Matches))
      (some (3, AlignmentLayer.Matches)) = some (3, AlignmentLayer.Inserts) := by
  refine ⟨by decide, by decide, by decide⟩

/-- Claim C6, amended: in `update_ins`/`update_del` an offset tie between the
open (`Matches`) and extend (`Inserts`/`Deletes`) candidates stores the
extend candidate's tag; in `update_mat` with all three candidates present the
mismatch candidate wins ties against both gap candidates, the delete
candidate wins its tie against the insert candidate, and when the mismatch
candidate beats the insert candidate but not the delete candidate the delete
candidate's offset is stored with the `Inserts` tag. -/
theorem C6_tie_break_amended :
    (∀ x y : Int × AlignmentLayer, x.1 = y.1 →
      update_ins_value (some x) (some y) = some (y.1, AlignmentLayer.Inserts)) ∧
    (∀ x y : Int × AlignmentLayer, x.1 = y.1 →
      update_del_value (some x) (some y) = some (y.1 + 1, AlignmentLayer.Deletes)) ∧
    (∀ x y z : Int × AlignmentLayer, x.1 + 1 ≥ y.1 → x.1 + 1 ≥ z.1 →
      update_mat_value (some x) (some y) (some z) =
        some (x.1 + 1, AlignmentLayer.Matches)) ∧
    (∀ x y z : Int × AlignmentLayer, x.1 + 1 ≥ y.1 → x.1 + 1 < z.1 →
      update_mat_value (some x) (some y) (some z) =
        some (z.1, AlignmentLayer.Inserts)) ∧
    (∀ x y z : Int × AlignmentLayer, x.1 + 1 < y.1 → y.1 ≤ z.1 →
      update_mat_value (some x) (some y) (some z) =
        some (z.1, AlignmentLayer.Deletes)) := by
  refine ⟨?_, ?_, ?_, ?_, ?_⟩
  · intro x y h
    simp only [update_ins_value, if_neg (by omega : ¬ x.1 > y.1)]
  · intro x y h
    simp only [update_del_value, if_neg (by omega : ¬ x.1 > y.1)]
  · intro x y z h1 h2
    simp only [update_mat_value, if_pos h1, if_pos h2]
  · intro x y z h1 h2
    simp only [update_mat_value, if_pos h1, if_neg (by omega : ¬ x.1 + 1 ≥ z.1)]
  · intro x y z h1 h2
    simp only [update_mat_value, if_neg (by omega : ¬ x.1 + 1 ≥ y.1),
      if_neg (by omega : ¬ y.1 > z.1)]

/-- Witness for `C6_tie_break_amended` at concrete candidates. -/
theorem C6_tie_break_amended_witness :
    update_ins_value (some (5, AlignmentLayer.Matches)) (some (5, AlignmentLayer.Inserts)) =
      some (5, AlignmentLayer.Inserts) ∧
    update_del_value (some (4, AlignmentLayer.Matches)) (some (4, AlignmentLayer.Deletes)) =
      some (5, AlignmentLayer.Deletes) ∧
    update_mat_value (some (2, AlignmentLayer.Matches)) (some (3, AlignmentLayer.Matches))
      (some (3, AlignmentLayer.Deletes)) = some (3, AlignmentLayer.Matches) ∧
    update_mat_value (some (2, AlignmentLayer.Matches)) (some (3, AlignmentLayer.Matches))
      (some (4, AlignmentLayer.Deletes)) = some (4, AlignmentLayer.Inserts) ∧
    update_mat_value (some (1, AlignmentLayer.Matches)) (some (3, AlignmentLayer.Matches))
      (some (3, AlignmentLayer.Deletes)) = some (3, AlignmentLayer.Deletes) :=
  ⟨C6_tie_break_amended.1 (5, AlignmentLayer.Matches) (5, AlignmentLayer.Inserts) rfl,
   C6_tie_break_amended.2.1 (4, AlignmentLayer.Matches) (4, AlignmentLayer.Deletes) rfl,
   C6_tie_break_amended.2.2.1 (2, AlignmentLayer.Matches) (3, AlignmentLayer.Matches)
     (3, AlignmentLayer.Deletes) (by decide) (by decide),
   C6_tie_break_amended.2.2.2.1 (2, AlignmentLayer.Matches) (3, AlignmentLayer.Matches)
     (4, AlignmentLayer.Deletes) (by decide) (by decide),
   C6_tie_break_amended.2.2.2.2 (1, AlignmentLayer.Matches) (3, AlignmentLayer.Matches)
     (3, AlignmentLayer.Deletes) (by decide) (by decide)⟩

/-! ## Claim C9: structural invariants of the wavefront grid -/

/-- Apply a sequence of `add_layer` calls. -/
def addLayers (g : WavefrontGrid) : List (Int × Int) → Option WavefrontGrid
  | [] => some g
  | (lo, hi) :: rest => do
    let g' ← g.add_layer lo hi
    addLayers g' rest

/-- Structural well-formedness of a grid: one sentinel offset past the
layers, the width equation for every allocated score, and the three cell
vectors exactly filling the last offset. -/
def gridInv (g : WavefrontGrid) : Prop :=
  g.offsets.length = g.diags.length + 1 ∧
  (∀ s : Nat, s < g.diags.length →
    ∃ b lo hi, g.offsets.get? s = some b ∧ g.diags.get? s = some (lo, hi) ∧
      lo ≤ hi ∧ g.offsets.get? (s + 1) = some (b + (hi - lo + 1).toNat)) ∧
  (∃ last, g.offsets.get? g.diags.length = some last ∧
    g.matchesL.length = last ∧ g.insertsL.length = last ∧ g.deletesL.length = last)

theorem gridInv_new : gridInv new_wavefront_grid := by
  refine ⟨rfl, ?_, 1, rfl, rfl, rfl, rfl⟩
  intro s hs
  have hs' : s = 0 := Nat.lt_one_iff.mp hs
  subst hs'
  exact ⟨0, 0, 0, rfl, rfl, le_refl 0, rfl⟩

theorem gridInv_last (g : WavefrontGrid) (hg : gridInv g) :
    ∃ last, g.offsets.get? (g.offsets.length - 1) = some last ∧
      g.offsets.get? g.diags.length = some last ∧
      g.matchesL.length = last ∧ g.insertsL.length = last ∧ g.deletesL.length = last := by
  obtain ⟨hlen, _, last, h1, h2, h3, h4⟩ := hg
  refine ⟨last, ?_, h1, h2, h3, h4⟩
  rw [hlen]
  simpa using h1

theorem gridInv_offsets_mono (g : WavefrontGrid) (hg : gridInv g) :
    ∀ s t : Nat, s ≤ t → t ≤ g.diags.length →
      ∀ b b', g.offsets.get? s = some b → g.offsets.get? t = some b' → b ≤ b' := by
  obtain ⟨hlen, hw, hlast⟩ := hg
  intro s t hst
  induction t with
  | zero =>
    intro _ b b' h1 h2
    have hs0 : s = 0 := Nat.le_zero.mp hst
    subst hs0
    rw [h1] at h2
    exact (Option.some.inj h2).le
  | succ t ih =>
    intro ht b b' h1 h2
    rcases Nat.lt_or_ge s (t + 1) with h | h
    · have hs : s ≤ t := Nat.lt_succ_iff.mp h
      obtain ⟨c, lo, hi, hc, _, _, hc'⟩ := hw t (by omega)
      have hbc := ih hs (by omega) b c h1 hc
      rw [h2] at hc'
      have := Option.some.inj hc'
      omega
    · have hseq : s = t + 1 := by omega
      subst hseq
      rw [h1] at h2
      exact (Option.some.inj h2).le

theorem add_layer_eq (g : WavefrontGrid) (last : Nat)
    (hlast : g.offsets.get? (g.offsets.length - 1) = some last) (lo hi : Int) :
    g.add_layer lo hi = some
      { diags := g.diags ++ [(lo, hi)]
        offsets := g.offsets ++ [last + (hi - lo + 1).toNat]
        matchesL := g.matchesL ++ List.replicate (hi - lo + 1).toNat none
        insertsL := g.insertsL ++ List.replicate (hi - lo + 1).toNat none
        deletesL := g.deletesL ++ List.replicate (hi - lo + 1).toNat none } := by
  simp only [WavefrontGrid.add_layer, Option.bind_eq_bind, hlast, Option.some_bind]
  rfl

theorem gridInv_add_layer (g : WavefrontGrid) (hg : gridInv g) (lo hi : Int)
    (hlohi : lo ≤ hi) :
    ∃ g', g.add_layer lo hi = some g' ∧ gridInv g' := by
  obtain ⟨last, hl1, hl2, hm, hins, hdel⟩ := gridInv_last g hg
  obtain ⟨hlen, hw, _⟩ := hg
  refine ⟨_, add_layer_eq g last hl1 lo hi, ?_, ?_, ?_⟩
  · simp only [List.length_append, List.length_singleton]
    omega
  · intro s hs
    simp only [List.length_append, List.length_singleton] at hs
    rcases Nat.lt_or_ge s g.diags.length with h | h
    · obtain ⟨b, lo1, hi1, h1, h2, h3, h4⟩ := hw s h
      refine ⟨b, lo1, hi1, ?_, ?_, h3, ?_⟩
      · rw [List.get?_append (by omega : s < g.offsets.length)]; exact h1
      · rw [List.get?_append h]; exact h2
      · rw [List.get?_append (by omega : s + 1 < g.offsets.length)]; exact h4
    · have hseq : s = g.diags.length := by omega
      subst hseq
      refine ⟨last, lo, hi, ?_, ?_, hlohi, ?_⟩
      · rw [List.get?_append (by omega : g.diags.length < g.offsets.length)]; exact hl2
      · exact List.get?_concat_length _ _
      · rw [show g.diags.length + 1 = g.offsets.length from hlen.symm]
        exact List.get?_concat_length _ _
  · refine ⟨last + (hi - lo + 1).toNat, ?_, ?_, ?_, ?_⟩
    · simp only [List.length_append, List.length_singleton]
      rw [show g.diags.length + 1 = g.offsets.length from hlen.symm]
      exact List.get?_concat_length _ _
    · simp [hm]
    · simp [hins]
    · simp [hdel]

theorem addLayers_gridInv (L : List (Int × Int)) (hL : ∀ p ∈ L, p.1 ≤ p.2) :
    ∀ g, gridInv g → ∃ g', addLayers g L = some g' ∧ gridInv g' := by
  induction L with
  | nil => intro g hg; exact ⟨g, rfl, hg⟩
  | cons p rest ih =>
    intro g hg
    obtain ⟨g1, hadd, hinv⟩ := gridInv_add_layer g hg p.1 p.2 (hL p (by simp))
    obtain ⟨g', hrest, hinv'⟩ := ih (fun q hq => hL q (by simp [hq])) g1 hinv
    refine ⟨g', ?_, hinv'⟩
    simpa [addLayers, hadd] using hrest

/-- Reading an allocated in-range cell is unchanged by a later `add_layer`. -/
theorem get_preserved_by_add_layer (g : WavefrontGrid) (hg : gridInv g)
    (lo hi : Int) (g' : WavefrontGrid)
    (hadd : g.add_layer lo hi = some g')
    (layer : AlignmentLayer) (s : Nat) (k : Int) (hs : s < g.diags.length) :
    g'.get layer s k = g.get layer s k := by
  obtain ⟨last, hl1, hl2, hm, hins, hdel⟩ := gridInv_last g hg
  rw [add_layer_eq g last hl1 lo hi] at hadd
  have hg'eq := Option.some.inj hadd
  subst hg'eq
  obtain ⟨hlen, hw, _⟩ := hg
  obtain ⟨b, lo1, hi1, hb, hdiag, hlh, hb'⟩ := hw s hs
  have hdiag' : (g.diags ++ [(lo, hi)]).get? s = some (lo1, hi1) := by
    rw [List.get?_append hs]; exact hdiag
  have hoff' : (g.offsets ++ [last + (hi - lo + 1).toNat]).get? s = some b := by
    rw [List.get?_append (by omega : s < g.offsets.length)]; exact hb
  simp only [WavefrontGrid.get, hdiag, hdiag', hb, hoff', List.length_append,
    List.length_singleton]
  rw [if_neg (by omega : ¬ s ≥ g.offsets.length + 1),
    if_neg (by omega : ¬ s ≥ g.offsets.length)]
  by_cases hk : k < lo1 ∨ k > hi1
  · rw [if_pos hk, if_pos hk]
  · rw [if_neg hk, if_neg hk]
    push_neg at hk
    have hpos : b + (k - lo1).toNat < last := by
      have h1 : (k - lo1).toNat < (hi1 - lo1 + 1).toNat := by omega
      have h2 : b + (hi1 - lo1 + 1).toNat ≤ last := by
        have := gridInv_offsets_mono g ⟨hlen, hw, last, hl2, hm, hins, hdel⟩
          (s + 1) g.diags.length (by omega) (le_refl _) _ last hb' hl2
        omega
      omega
    cases layer with
    | Matches => rw [List.get?_append (by omega : b + (k - lo1).toNat < g.matchesL.length)]
    | Inserts => rw [List.get?_append (by omega : b + (k - lo1).toNat < g.insertsL.length)]
    | Deletes => rw [List.get?_append (by omega : b + (k - lo1).toNat < g.deletesL.length)]

/-- Claim C9 (status confirmed): after `new_wavefront_grid` and any sequence
of `add_layer(lo, hi)` calls with `lo ≤ hi`, the grid satisfies: `offsets`
carries exactly one sentinel entry past the highest allocated score
(`offsets.length = diags.length + 1`); for every allocated score `s`,
`offsets[s+1] = offsets[s] + (hi_s - lo_s + 1)`, hence `offsets` is
monotonically non-decreasing; and a further `add_layer` leaves every
already-allocated cell's `get` value unchanged (layers are append-only). -/
theorem C9_grid_invariants (L : List (Int × Int)) (hL : ∀ p ∈ L, p.1 ≤ p.2) :
    ∃ g, addLayers new_wavefront_grid L = some g ∧
      g.offsets.length = g.diags.length + 1 ∧
      (∀ s : Nat, s < g.diags.length →
        ∃ b lo hi, g.offsets.get? s = some b ∧ g.diags.get? s = some (lo, hi) ∧
          (g.offsets.get? (s + 1) = some (b + (hi - lo + 1).toNat) ∧
            b ≤ b + (hi - lo + 1).toNat)) ∧
      (∀ lo hi : Int, lo ≤ hi → ∀ layer s k, (s : Nat) < g.diags.length →
        ∃ g', g.add_layer lo hi = some g' ∧ g'.get layer s k = g.get layer s k) := by
  obtain ⟨g, hfold, hinv⟩ := addLayers_gridInv L hL new_wavefront_grid gridInv_new
  refine ⟨g, hfold, hinv.1, ?_, ?_⟩
  · intro s hs
    obtain ⟨b, lo, hi, h1, h2, h3, h4⟩ := hinv.2.1 s hs
    exact ⟨b, lo, hi, h1, h2, h4, by omega⟩
  · intro lo hi hlohi layer s k hs
    obtain ⟨g', hadd, _⟩ := gridInv_add_layer g hinv lo hi hlohi
    exact ⟨g', hadd, get_preserved_by_add_layer g hinv lo hi g' hadd layer s k hs⟩

/-- Witness for `C9_grid_invariants` at the concrete layer list
`[(-1, 2), (0, 0)]`. -/
theorem C9_grid_invariants_witness :
    (∀ p ∈ [((-1 : Int), (2 : Int)), ((0 : Int), (0 : Int))], p.1 ≤ p.2) ∧
    ∃ g, addLayers new_wavefront_grid [((-1 : Int), (2 : Int)), ((0 : Int), (0 : Int))] = some g ∧
      g.offsets.length = g.diags.length + 1 ∧
      (∀ s : Nat, s < g.diags.length →
        ∃ b lo hi, g.offsets.get? s = some b ∧ g.diags.get? s = some (lo, hi) ∧
          (g.offsets.get? (s + 1) = some (b + (hi - lo + 1).toNat) ∧
            b ≤ b + (hi - lo + 1).toNat)) ∧
      (∀ lo hi : Int, lo ≤ hi → ∀ layer s k, (s : Nat) < g.diags.length →
        ∃ g', g.add_layer lo hi = some g' ∧ g'.get layer s k = g.get layer s k) :=
  ⟨by decide, C9_grid_invariants [((-1 : Int), (2 : Int)), ((0 : Int), (0 : Int))] (by decide)⟩

/-! ## Totality of the reference aligner (claims C8, C10)

`affine_gap_align` never returns its error variant: on non-empty inputs the
whole pipeline produces `Ok`, and on empty inputs `new_mat` panics.  The
lemmas below establish the matrix shape and cell-someness invariants through
`new_mat`, the fill loops, and `trace_back`. -/

theorem get?_isSome_of_lt {α : Type} (l : List α) (i : Nat) (h : i < l.length) :
    ∃ x, l.get? i = some x := by
  cases hx : l.get? i with
  | none => rw [List.get?_eq_none] at hx; omega
  | some x => exact ⟨x, rfl⟩

/-- A string has at least as many UTF-8 bytes as characters (each character
encodes to at least one byte), so the byte-sized DP matrices always contain
the character-indexed fill region. -/
theorem length_le_utf8ByteSize (s : String) : s.length ≤ s.utf8ByteSize := by
  cases s with
  | mk data =>
    show data.length ≤ String.utf8ByteSize.go data
    induction data with
    | nil => simp [String.utf8ByteSize.go]
    | cons c cs ih =>
      have hc := Char.utf8Size_pos c
      simp only [List.length_cons, String.utf8ByteSize.go]
      omega

theorem eq_empty_of_utf8ByteSize_eq_zero (s : String) (h : s.utf8ByteSize = 0) :
    s = "" := by
  cases s with
  | mk data =>
    cases data with
    | nil => rfl
    | cons c cs =>
      exfalso
      have hc := Char.utf8Size_pos c
      have hgo : String.utf8ByteSize ⟨c :: cs⟩ = String.utf8ByteSize.go cs + c.utf8Size := rfl
      omega

/-- Index-based shape of a reference matrix. -/
def matShape (m : RefMat) (rows cols : Nat) : Prop :=
  m.length = rows ∧ ∀ i row, m.get? i = some row → row.length = cols

theorem matShape_replicate (rows cols : Nat) (c : RefCell) :
    matShape (List.replicate rows (List.replicate cols c)) rows cols := by
  refine ⟨by simp, ?_⟩
  intro i row hrow
  have hmem := List.get?_mem hrow
  have := List.eq_of_mem_replicate hmem
  subst this
  simp

theorem mgetC_lt (m : RefMat) (rows cols : Nat) (hm : matShape m rows cols)
    (i j : Nat) (hi : i < rows) (hj : j < cols) : ∃ c, mgetC m i j = some c := by
  obtain ⟨hlen, hrows⟩ := hm
  obtain ⟨row, hrow⟩ := get?_isSome_of_lt m i (by omega)
  obtain ⟨c, hc⟩ := get?_isSome_of_lt row j (by rw [hrows i row hrow]; omega)
  refine ⟨c, ?_⟩
  simp only [mgetC]
  rw [hrow]
  simpa using hc

theorem msetC_spec (m : RefMat) (rows cols : Nat) (hm : matShape m rows cols)
    (i j : Nat) (hi : i < rows) (hj : j < cols) (v : RefCell) :
    ∃ m', msetC m i j v = some m' ∧ matShape m' rows cols ∧
      mgetC m' i j = some v ∧
      ∀ i' j', i' ≠ i ∨ j' ≠ j → mgetC m' i' j' = mgetC m i' j' := by
  obtain ⟨hlen, hrows⟩ := hm
  obtain ⟨row, hrow⟩ := get?_isSome_of_lt m i (by omega)
  have hrl : row.length = cols := hrows i row hrow
  have hjr : j < row.length := by omega
  have hset1 : setN? row j v = some (row.set j v) := by
    simp [setN?, hjr]
  have hset2 : setN? m i (row.set j v) = some (m.set i (row.set j v)) := by
    simp [setN?]
    omega
  refine ⟨m.set i (row.set j v), ?_, ⟨?_, ?_⟩, ?_, ?_⟩
  · simp only [msetC, Option.bind_eq_bind]
    rw [hrow]
    simp only [Option.some_bind]
    rw [hset1]
    simp only [Option.some_bind]
    exact hset2
  · simp [hlen]
  · intro i' row' hrow'
    rcases eq_or_ne i' i with h | h
    · subst h
      rw [List.get?_set_eq_of_lt _ (by omega)] at hrow'
      have := Option.some.inj hrow'
      subst this
      simp [hrl]
    · rw [List.get?_set_ne _ _ (by omega)] at hrow'
      exact hrows i' row' hrow'
  · simp only [mgetC]
    rw [List.get?_set_eq_of_lt _ (by omega)]
    simp only [Option.bind_some, Option.some_bind]
    exact List.get?_set_eq_of_lt _ hjr
  · intro i' j' hne
    simp only [mgetC]
    rcases eq_or_ne i' i with h | h
    · subst h
      rw [List.get?_set_eq_of_lt _ (by omega), hrow]
      simp only [Option.some_bind]
      have hj' : j' ≠ j := by tauto
      exact List.get?_set_ne _ _ (by omega)
    · rw [List.get?_set_ne _ _ (by omega)]

/-- Cell at `(i, j)` holds a present score value (any tag). -/
def cellVal (m : RefMat) (i j : Nat) : Prop :=
  ∃ v t, mgetC m i j = some (some v, t)

/-- Cell at `(i, j)` holds a present score value and a present tag. -/
def cellValTag (m : RefMat) (i j : Nat) : Prop :=
  ∃ v t, mgetC m i j = some (some v, some t)

theorem borderColLoop_spec (extd : Int) (al bl : Nat) :
    ∀ (cnt start : Nat) (ins mat : RefMat),
      matShape ins al bl → matShape mat al bl →
      2 ≤ start → start + cnt ≤ al → 0 < bl →
      cellVal ins (start - 1) 0 →
      (∀ i, i < start → cellVal mat i 0) →
      ∃ ins' mat', borderColLoop extd ins mat (List.range' start cnt) = some (ins', mat') ∧
        matShape ins' al bl ∧ matShape mat' al bl ∧
        (∀ i, i < start + cnt → cellVal mat' i 0) ∧
        (∀ i' j', j' ≠ 0 ∨ i' < start →
          mgetC ins' i' j' = mgetC ins i' j' ∧ mgetC mat' i' j' = mgetC mat i' j') := by
  intro cnt
  induction cnt with
  | zero =>
    intro start ins mat hins hmat _ _ _ _ hmatv
    exact ⟨ins, mat, rfl, hins, hmat, fun i hi => hmatv i (by omega),
      fun i' j' _ => ⟨rfl, rfl⟩⟩
  | succ cnt ih =>
    intro start ins mat hins hmat hstart hcnt hbl hprev hmatv
    obtain ⟨pv, pt, hpv⟩ := hprev
    obtain ⟨ins1, hset1, hins1, hget1, hother1⟩ :=
      msetC_spec ins al bl hins start 0 (by omega) hbl
        (some (pv + extd), some AlignmentLayer.Inserts)
    obtain ⟨mat1, hset2, hmat1, hget2, hother2⟩ :=
      msetC_spec mat al bl hmat start 0 (by omega) hbl
        (some (pv + extd), some AlignmentLayer.Inserts)
    have hstep : borderColLoop extd ins mat (List.range' start (cnt + 1)) =
        borderColLoop extd ins1 mat1 (List.range' (start + 1) cnt) := by
      rw [List.range'_succ]
      simp only [borderColLoop, Option.bind_eq_bind]
      rw [show mgetC ins (start - 1) 0 = some (some pv, pt) from hpv]
      simp only [Option.some_bind]
      rw [hset1, Option.some_bind, hget1, Option.some_bind, hset2, Option.some_bind]
    rw [hstep]
    obtain ⟨ins', mat', hloop, hins', hmat', hvals, hother⟩ :=
      ih (start + 1) ins1 mat1 hins1 hmat1 (by omega) (by omega) hbl
        (by
          refine ⟨pv + extd, some AlignmentLayer.Inserts, ?_⟩
          simpa using hget1)
        (by
          intro i hi
          rcases Nat.lt_or_ge i start with h | h
          · obtain ⟨v, t, hv⟩ := hmatv i h
            refine ⟨v, t, ?_⟩
            rw [hother2 i 0 (by omega)]
            exact hv
          · have : i = start := by omega
            subst this
            exact ⟨pv + extd, some AlignmentLayer.Inserts, hget2⟩)
    refine ⟨ins', mat', hloop, hins', hmat', ?_, ?_⟩
    · intro i hi
      exact hvals i (by omega)
    · intro i' j' hij
      have hcond : j' ≠ 0 ∨ i' < start + 1 := by omega
      obtain ⟨h1, h2⟩ := hother i' j' hcond
      have hcond2 : i' ≠ start ∨ j' ≠ 0 := by omega
      constructor
      · rw [h1, hother1 i' j' hcond2]
      · rw [h2, hother2 i' j' hcond2]

theorem borderRowLoop_spec (extd : Int) (al bl : Nat) :
    ∀ (cnt start : Nat) (del mat : RefMat),
      matShape del al bl → matShape mat al bl →
      2 ≤ start → start + cnt ≤ bl → 0 < al →
      cellVal del 0 (start - 1) →
      (∀ j, j < start → cellVal mat 0 j) →
      ∃ del' mat', borderRowLoop extd del mat (List.range' start cnt) = some (del', mat') ∧
        matShape del' al bl ∧ matShape mat' al bl ∧
        (∀ j, j < start + cnt → cellVal mat' 0 j) ∧
        (∀ i' j', i' ≠ 0 ∨ j' < start →
          mgetC del' i' j' = mgetC del i' j' ∧ mgetC mat' i' j' = mgetC mat i' j') := by
  intro cnt
  induction cnt with
  | zero =>
    intro start del mat hdel hmat _ _ _ _ hmatv
    exact ⟨del, mat, rfl, hdel, hmat, fun j hj => hmatv j (by omega),
      fun i' j' _ => ⟨rfl, rfl⟩⟩
  | succ cnt ih =>
    intro start del mat hdel hmat hstart hcnt hal hprev hmatv
    obtain ⟨pv, pt, hpv⟩ := hprev
    obtain ⟨del1, hset1, hdel1, hget1, hother1⟩ :=
      msetC_spec del al bl hdel 0 start hal (by omega)
        (some (pv + extd), some AlignmentLayer.Deletes)
    obtain ⟨mat1, hset2, hmat1, hget2, hother2⟩ :=
      msetC_spec mat al bl hmat 0 start hal (by omega)
        (some (pv + extd), some AlignmentLayer.Deletes)
    have hstep : borderRowLoop extd del mat (List.range' start (cnt + 1)) =
        borderRowLoop extd del1 mat1 (List.range' (start + 1) cnt) := by
      rw [List.range'_succ]
      simp only [borderRowLoop, Option.bind_eq_bind]
      rw [show mgetC del 0 (start - 1) = some (some pv, pt) from hpv]
      simp only [Option.some_bind]
      rw [hset1, Option.some_bind, hget1, Option.some_bind, hset2, Option.some_bind]
    rw [hstep]
    obtain ⟨del', mat', hloop, hdel', hmat', hvals, hother⟩ :=
      ih (start + 1) del1 mat1 hdel1 hmat1 (by omega) (by omega) hal
        (by
          refine ⟨pv + extd, some AlignmentLayer.Deletes, ?_⟩
          simpa using hget1)
        (by
          intro j hj
          rcases Nat.lt_or_ge j start with h | h
          · obtain ⟨v, t, hv⟩ := hmatv j h
            refine ⟨v, t, ?_⟩
            rw [hother2 0 j (by omega)]
            exact hv
          · have : j = start := by omega
            subst this
            exact ⟨pv + extd, some AlignmentLayer.Deletes, hget2⟩)
    refine ⟨del', mat', hloop, hdel', hmat', ?_, ?_⟩
    · intro j hj
      exact hvals j (by omega)
    · intro i' j' hij
      have hcond : i' ≠ 0 ∨ j' < start + 1 := by omega
      obtain ⟨h1, h2⟩ := hother i' j' hcond
      have hcond2 : i' ≠ 0 ∨ j' ≠ start := by omega
      constructor
      · rw [h1, hother1 i' j' hcond2]
      · rw [h2, hother2 i' j' hcond2]

/-- Shape and border facts established by `new_mat`. -/
def refBorders (m : AlignMat) (al bl : Nat) : Prop :=
  matShape m.insertsM al bl ∧ matShape m.matchesM al bl ∧ matShape m.deletesM al bl ∧
  (∀ i, i < al → cellVal m.matchesM i 0) ∧
  (∀ j, j < bl → cellVal m.matchesM 0 j)

theorem msetC_none (m : RefMat) (rows cols : Nat) (hm : matShape m rows cols)
    (i j : Nat) (v : RefCell) (h : rows ≤ i ∨ cols ≤ j) : msetC m i j v = none := by
  obtain ⟨hlen, hrows⟩ := hm
  rcases Nat.lt_or_ge i m.length with hi | hi
  · obtain ⟨row, hrow⟩ := get?_isSome_of_lt m i hi
    have hcols : cols ≤ j := by
      rcases h with h | h
      · omega
      · exact h
    have hrl := hrows i row hrow
    simp only [msetC, Option.bind_eq_bind]
    rw [hrow]
    simp only [Option.some_bind]
    have : setN? row j v = none := by
      simp [setN?]
      omega
    rw [this]
    rfl
  · have : m.get? i = none := List.get?_eq_none.mpr hi
    simp only [msetC, Option.bind_eq_bind]
    rw [this]
    rfl

theorem new_mat_spec (a b : String) (pens : Penalties)
    (ha : 1 ≤ a.utf8ByteSize) (hb : 1 ≤ b.utf8ByteSize) :
    ∃ m, new_mat a b pens = some m ∧
      refBorders m (a.utf8ByteSize + 1) (b.utf8ByteSize + 1) := by
  set al := a.utf8ByteSize + 1 with hal
  set bl := b.utf8ByteSize + 1 with hbl
  have hsh : matShape (List.replicate al (List.replicate bl ((none, none) : RefCell)))
      al bl := matShape_replicate al bl (none, none)
  obtain ⟨m1, hs1, hm1, hg1, ho1⟩ := msetC_spec _ al bl hsh 0 0 (by omega) (by omega)
    (some 0, none)
  obtain ⟨i1, hs2, hi1, hg2, ho2⟩ := msetC_spec _ al bl hsh 1 0 (by omega) (by omega)
    (some (pens.extd_pen + pens.open_pen), some AlignmentLayer.Matches)
  obtain ⟨m2, hs3, hm2, hg3, ho3⟩ := msetC_spec m1 al bl hm1 1 0 (by omega) (by omega)
    (some (pens.extd_pen + pens.open_pen), some AlignmentLayer.Matches)
  obtain ⟨i2, m3, hloop1, hi2, hm3, hcol, hoth1⟩ :=
    borderColLoop_spec pens.extd_pen al bl (al - 2) 2 i1 m2 hi1 hm2 (le_refl 2)
      (by omega) (by omega)
      ⟨pens.extd_pen + pens.open_pen, some AlignmentLayer.Matches, hg2⟩
      (by
        intro i hi
        interval_cases i
        · exact ⟨0, none, by rw [ho3 0 0 (by omega)]; exact hg1⟩
        · exact ⟨pens.extd_pen + pens.open_pen, some AlignmentLayer.Matches, hg3⟩)
  obtain ⟨d1, hs4, hd1, hg4, ho4⟩ := msetC_spec _ al bl hsh 0 1 (by omega) (by omega)
    (some (pens.extd_pen + pens.open_pen), some AlignmentLayer.Matches)
  obtain ⟨m4, hs5, hm4, hg5, ho5⟩ := msetC_spec m3 al bl hm3 0 1 (by omega) (by omega)
    (some (pens.extd_pen + pens.open_pen), some AlignmentLayer.Matches)
  obtain ⟨d2, m5, hloop2, hd2, hm5, hrow, hoth2⟩ :=
    borderRowLoop_spec pens.extd_pen al bl (bl - 2) 2 d1 m4 hd1 hm4 (le_refl 2)
      (by omega) (by omega)
      ⟨pens.extd_pen + pens.open_pen, some AlignmentLayer.Matches, hg4⟩
      (by
        intro j hj
        interval_cases j
        · refine ⟨0, none, ?_⟩
          rw [ho5 0 0 (by omega), hoth1 0 0 (by omega) |>.2, ho3 0 0 (by omega)]
          exact hg1
        · exact ⟨pens.extd_pen + pens.open_pen, some AlignmentLayer.Matches, hg5⟩)
  refine ⟨⟨i2, m5, d2⟩, ?_, hi2, hm5, hd2, ?_, ?_⟩
  · simp only [new_mat, Option.bind_eq_bind, ← hal, ← hbl]
    rw [hs1]
    simp only [Option.some_bind]
    rw [hs2]
    simp only [Option.some_bind]
    rw [hg2]
    simp only [Option.some_bind]
    rw [hs3]
    simp only [Option.some_bind]
    rw [hloop1]
    simp only [Option.some_bind]
    rw [hs4]
    simp only [Option.some_bind]
    rw [hg4]
    simp only [Option.some_bind]
    rw [hs5]
    simp only [Option.some_bind]
    rw [hloop2]
    simp only [Option.some_bind]
    rfl
  · intro i hi
    rcases eq_or_ne i 0 with h0 | h0
    · subst h0
      refine ⟨0, none, ?_⟩
      rw [hoth2 0 0 (by omega) |>.2, ho5 0 0 (by omega), hoth1 0 0 (by omega) |>.2,
        ho3 0 0 (by omega)]
      exact hg1
    · obtain ⟨v, t, hv⟩ := hcol i (by omega)
      refine ⟨v, t, ?_⟩
      rw [hoth2 i 0 (by omega) |>.2, ho5 i 0 (by omega)]
      exact hv
  · intro j hj
    exact hrow j (by omega)

theorem new_mat_none_of_empty (a b : String) (pens : Penalties)
    (h : a.utf8ByteSize = 0 ∨ b.utf8ByteSize = 0) : new_mat a b pens = none := by
  set al := a.utf8ByteSize + 1 with hal
  set bl := b.utf8ByteSize + 1 with hbl
  have hsh : matShape (List.replicate al (List.replicate bl ((none, none) : RefCell)))
      al bl := matShape_replicate al bl (none, none)
  obtain ⟨m1, hs1, hm1, hg1, ho1⟩ := msetC_spec _ al bl hsh 0 0 (by omega) (by omega)
    (some 0, none)
  rcases h with h | h
  · have hnone : msetC (List.replicate al (List.replicate bl ((none, none) : RefCell)))
        1 0 (some (pens.extd_pen + pens.open_pen), some AlignmentLayer.Matches) = none :=
      msetC_none _ al bl hsh 1 0 _ (by omega)
    simp only [new_mat, Option.bind_eq_bind, ← hal, ← hbl]
    rw [hs1]
    simp only [Option.some_bind]
    rw [hnone]
    rfl
  · rcases eq_or_ne a.utf8ByteSize 0 with h0 | h0
    · have hnone : msetC (List.replicate al (List.replicate bl ((none, none) : RefCell)))
          1 0 (some (pens.extd_pen + pens.open_pen), some AlignmentLayer.Matches) = none :=
        msetC_none _ al bl hsh 1 0 _ (by omega)
      simp only [new_mat, Option.bind_eq_bind, ← hal, ← hbl]
      rw [hs1]
      simp only [Option.some_bind]
      rw [hnone]
      rfl
    · obtain ⟨i1, hs2, hi1, hg2, ho2⟩ := msetC_spec _ al bl hsh 1 0 (by omega) (by omega)
        (some (pens.extd_pen + pens.open_pen), some AlignmentLayer.Matches)
      obtain ⟨m2, hs3, hm2, hg3, ho3⟩ := msetC_spec m1 al bl hm1 1 0 (by omega) (by omega)
        (some (pens.extd_pen + pens.open_pen), some AlignmentLayer.Matches)
      obtain ⟨i2, m3, hloop1, hi2, hm3, hcol, hoth1⟩ :=
        borderColLoop_spec pens.extd_pen al bl (al - 2) 2 i1 m2 hi1 hm2 (le_refl 2)
          (by omega) (by omega)
          ⟨pens.extd_pen + pens.open_pen, some AlignmentLayer.Matches, hg2⟩
          (by
            intro i hi
            interval_cases i
            · exact ⟨0, none, by rw [ho3 0 0 (by omega)]; exact hg1⟩
            · exact ⟨pens.extd_pen + pens.open_pen, some AlignmentLayer.Matches, hg3⟩)
      have hnone : msetC (List.replicate al (List.replicate bl ((none, none) : RefCell)))
          0 1 (some (pens.extd_pen + pens.open_pen), some AlignmentLayer.Matches) = none :=
        msetC_none _ al bl hsh 0 1 _ (by omega)
      simp only [new_mat, Option.bind_eq_bind, ← hal, ← hbl]
      rw [hs1]
      simp only [Option.some_bind]
      rw [hs2]
      simp only [Option.some_bind]
      rw [hg2]
      simp only [Option.some_bind]
      rw [hs3]
      simp only [Option.some_bind]
      rw [hloop1]
      simp only [Option.some_bind]
      rw [hnone]
      rfl

theorem refInsValue_some (pens : Penalties) (up : Option Int) (b : Int) :
    ∃ v t, refInsValue pens up (some b) = some (some v, some t) := by
  cases up with
  | none => exact ⟨_, _, rfl⟩
  | some a =>
    simp only [refInsValue]
    split
    · exact ⟨_, _, rfl⟩
    · exact ⟨_, _, rfl⟩

theorem refDelValue_some (pens : Penalties) (left : Option Int) (b : Int) :
    ∃ v t, refDelValue pens left (some b) = some (some v, some t) := by
  cases left with
  | none => exact ⟨_, _, rfl⟩
  | some a =>
    simp only [refDelValue]
    split
    · exact ⟨_, _, rfl⟩
    · exact ⟨_, _, rfl⟩

theorem refMatValue_some (mismatch : Int) (diagv insv : Option Int) (b : Int) :
    ∃ v t, refMatValue mismatch diagv (some b) insv = some (some v, some t) := by
  cases diagv with
  | none =>
    cases insv with
    | none => exact ⟨_, _, rfl⟩
    | some c =>
      simp only [refMatValue]
      split
      · exact ⟨_, _, rfl⟩
      · exact ⟨_, _, rfl⟩
  | some a =>
    cases insv with
    | none =>
      simp only [refMatValue]
      split
      · exact ⟨_, _, rfl⟩
      · exact ⟨_, _, rfl⟩
    | some c =>
      simp only [refMatValue]
      split
      · split
        · exact ⟨_, _, rfl⟩
        · exact ⟨_, _, rfl⟩
      · split
        · exact ⟨_, _, rfl⟩
        · exact ⟨_, _, rfl⟩

/-- Interior cells below row `iMax` are filled with a value and a tag. -/
def interiorOK (mat : RefMat) (iMax bl : Nat) : Prop :=
  ∀ i j, 1 ≤ i → i < iMax → 1 ≤ j → j < bl → cellValTag mat i j

theorem fillCell_spec (a b : String) (pens : Penalties) (m : AlignMat) (i j : Nat)
    (hmi : matShape m.insertsM (a.utf8ByteSize + 1) (b.utf8ByteSize + 1))
    (hmm : matShape m.matchesM (a.utf8ByteSize + 1) (b.utf8ByteSize + 1))
    (hmd : matShape m.deletesM (a.utf8ByteSize + 1) (b.utf8ByteSize + 1))
    (hi : 1 ≤ i) (hi2 : i < a.length + 1) (hj : 1 ≤ j) (hj2 : j < b.length + 1)
    (hup : cellVal m.matchesM (i - 1) j) (hleft : cellVal m.matchesM i (j - 1)) :
    ∃ m', fillCell a.toList b.toList pens m i j = some m' ∧
      matShape m'.insertsM (a.utf8ByteSize + 1) (b.utf8ByteSize + 1) ∧
      matShape m'.matchesM (a.utf8ByteSize + 1) (b.utf8ByteSize + 1) ∧
      matShape m'.deletesM (a.utf8ByteSize + 1) (b.utf8ByteSize + 1) ∧
      cellValTag m'.matchesM i j ∧
      (∀ i' j', i' ≠ i ∨ j' ≠ j →
        mgetC m'.insertsM i' j' = mgetC m.insertsM i' j' ∧
        mgetC m'.matchesM i' j' = mgetC m.matchesM i' j' ∧
        mgetC m'.deletesM i' j' = mgetC m.deletesM i' j') := by
  have hba := length_le_utf8ByteSize a
  have hbb := length_le_utf8ByteSize b
  set al := a.utf8ByteSize + 1 with hal
  set bl := b.utf8ByteSize + 1 with hbl
  obtain ⟨insUp, hinsUp⟩ := mgetC_lt m.insertsM al bl hmi (i - 1) j (by omega) (by omega)
  obtain ⟨uv, ut, hmatUp⟩ := hup
  obtain ⟨iv, it, hInsVal⟩ := refInsValue_some pens insUp.1 uv
  obtain ⟨ins', hsIns, hshIns, hgIns, hoIns⟩ :=
    msetC_spec m.insertsM al bl hmi i j (by omega) (by omega) (some iv, some it)
  obtain ⟨delLeft, hdelLeft⟩ := mgetC_lt m.deletesM al bl hmd i (j - 1) (by omega) (by omega)
  obtain ⟨lv, lt, hmatLeft⟩ := hleft
  obtain ⟨dv, dt, hDelVal⟩ := refDelValue_some pens delLeft.1 lv
  obtain ⟨del', hsDel, hshDel, hgDel, hoDel⟩ :=
    msetC_spec m.deletesM al bl hmd i j (by omega) (by omega) (some dv, some dt)
  obtain ⟨qc, hqc⟩ := get?_isSome_of_lt a.toList (i - 1) (by
    simpa using (by omega : i - 1 < a.length))
  obtain ⟨tc, htc⟩ := get?_isSome_of_lt b.toList (j - 1) (by
    simpa using (by omega : j - 1 < b.length))
  obtain ⟨matDiag, hmatDiag⟩ := mgetC_lt m.matchesM al bl hmm (i - 1) (j - 1)
    (by omega) (by omega)
  obtain ⟨mv, mt, hMatVal⟩ := refMatValue_some (if qc = tc then 0 else pens.mismatch_pen)
    matDiag.1 (some iv) dv
  obtain ⟨mat', hsMat, hshMat, hgMat, hoMat⟩ :=
    msetC_spec m.matchesM al bl hmm i j (by omega) (by omega) (some mv, some mt)
  refine ⟨⟨ins', mat', del'⟩, ?_, hshIns, hshMat, hshDel, ⟨mv, mt, hgMat⟩, ?_⟩
  · simp only [fillCell, Option.bind_eq_bind, getN?, hinsUp, hmatUp, Option.some_bind,
      hInsVal, hsIns, hdelLeft, hmatLeft, hDelVal, hsDel, hqc, htc, hmatDiag,
      hMatVal, hsMat]
    rfl
  · intro i' j' hne
    exact ⟨hoIns i' j' hne, hoMat i' j' hne, hoDel i' j' hne⟩

/-- Shapes, borders and below-`iMax` interior bundled for the fill loops.
The matrix shapes and border extents are **byte**-sized (as `new_mat` builds
them); the filled interior is bounded by the **character** counts that the
fill loops actually iterate over. -/
def fillInv (m : AlignMat) (a b : String) (iMax : Nat) : Prop :=
  matShape m.insertsM (a.utf8ByteSize + 1) (b.utf8ByteSize + 1) ∧
  matShape m.matchesM (a.utf8ByteSize + 1) (b.utf8ByteSize + 1) ∧
  matShape m.deletesM (a.utf8ByteSize + 1) (b.utf8ByteSize + 1) ∧
  (∀ i, i < a.utf8ByteSize + 1 → cellVal m.matchesM i 0) ∧
  (∀ j, j < b.utf8ByteSize + 1 → cellVal m.matchesM 0 j) ∧
  interiorOK m.matchesM iMax (b.length + 1)

theorem fillColsLoop_spec (a b : String) (pens : Penalties) (i : Nat)
    (hi : 1 ≤ i) (hi2 : i < a.length + 1) :
    ∀ (cnt j0 : Nat), 1 ≤ j0 → j0 + cnt ≤ b.length + 1 →
      ∀ m, fillInv m a b i →
        (∀ j, 1 ≤ j → j < j0 → cellValTag m.matchesM i j) →
        ∃ m', fillColsLoop a.toList b.toList pens i m (List.range' j0 cnt) = some m' ∧
          fillInv m' a b i ∧
          (∀ j, 1 ≤ j → j < j0 + cnt → cellValTag m'.matchesM i j) := by
  have hba := length_le_utf8ByteSize a
  have hbb := length_le_utf8ByteSize b
  intro cnt
  induction cnt with
  | zero =>
    intro j0 hj0 hle m hinv hrow
    exact ⟨m, rfl, hinv, fun j h1 h2 => hrow j h1 (by omega)⟩
  | succ cnt ih =>
    intro j0 hj0 hle m hinv hrow
    obtain ⟨hmi, hmm, hmd, hc0, hr0, hint⟩ := hinv
    have hup : cellVal m.matchesM (i - 1) j0 := by
      rcases eq_or_ne i 1 with h1 | h1
      · obtain ⟨v, t, hv⟩ := hr0 j0 (by omega)
        exact ⟨v, t, by rw [show i - 1 = 0 by omega]; exact hv⟩
      · obtain ⟨v, t, hv⟩ := hint (i - 1) j0 (by omega) (by omega) hj0 (by omega)
        exact ⟨v, some t, hv⟩
    have hleft : cellVal m.matchesM i (j0 - 1) := by
      rcases eq_or_ne j0 1 with h1 | h1
      · obtain ⟨v, t, hv⟩ := hc0 i (by omega)
        exact ⟨v, t, by rw [show j0 - 1 = 0 by omega]; exact hv⟩
      · obtain ⟨v, t, hv⟩ := hrow (j0 - 1) (by omega) (by omega)
        exact ⟨v, some t, hv⟩
    obtain ⟨m1, hstep, hmi1, hmm1, hmd1, hnew, hoth⟩ :=
      fillCell_spec a b pens m i j0 hmi hmm hmd hi hi2 hj0 (by omega) hup hleft
    have hinv1 : fillInv m1 a b i := by
      refine ⟨hmi1, hmm1, hmd1, ?_, ?_, ?_⟩
      · intro i' hi'
        obtain ⟨v, t, hv⟩ := hc0 i' hi'
        exact ⟨v, t, by rw [(hoth i' 0 (by omega)).2.1]; exact hv⟩
      · intro j' hj'
        obtain ⟨v, t, hv⟩ := hr0 j' hj'
        exact ⟨v, t, by rw [(hoth 0 j' (by omega)).2.1]; exact hv⟩
      · intro i' j' h1 h2 h3 h4
        obtain ⟨v, t, hv⟩ := hint i' j' h1 h2 h3 h4
        exact ⟨v, t, by rw [(hoth i' j' (by omega)).2.1]; exact hv⟩
    obtain ⟨m', hloop, hinv', hrow'⟩ := ih (j0 + 1) (by omega) (by omega) m1 hinv1
      (by
        intro j h1 h2
        rcases eq_or_ne j j0 with h | h
        · subst h; exact hnew
        · obtain ⟨v, t, hv⟩ := hrow j h1 (by omega)
          exact ⟨v, t, by rw [(hoth i j (by omega)).2.1]; exact hv⟩)
    refine ⟨m', ?_, hinv', fun j h1 h2 => hrow' j h1 (by omega)⟩
    rw [List.range'_succ]
    simp only [fillColsLoop, Option.bind_eq_bind, hstep, Option.some_bind]
    exact hloop

theorem fillRowsLoop_spec (a b : String) (pens : Penalties) :
    ∀ (cnt i0 : Nat), 1 ≤ i0 → i0 + cnt ≤ a.length + 1 →
      ∀ m, fillInv m a b i0 →
        ∃ m', fillRowsLoop a.toList b.toList pens b.length m (List.range' i0 cnt) = some m' ∧
          fillInv m' a b (i0 + cnt) := by
  intro cnt
  induction cnt with
  | zero =>
    intro i0 hi0 hle m hinv
    exact ⟨m, rfl, hinv⟩
  | succ cnt ih =>
    intro i0 hi0 hle m hinv
    obtain ⟨m1, hcols, hinv1, hrow1⟩ :=
      fillColsLoop_spec a b pens i0 hi0 (by omega) b.length 1 (le_refl 1) (by omega)
        m hinv (by omega)
    have hinv1' : fillInv m1 a b (i0 + 1) := by
      obtain ⟨h1, h2, h3, h4, h5, h6⟩ := hinv1
      refine ⟨h1, h2, h3, h4, h5, ?_⟩
      intro i' j' ha1 ha2 ha3 ha4
      rcases eq_or_ne i' i0 with h | h
      · subst h; exact hrow1 j' ha3 (by omega)
      · exact h6 i' j' ha1 (by omega) ha3 ha4
    obtain ⟨m', hloop, hinv'⟩ := ih (i0 + 1) (by omega) (by omega) m1 hinv1'
    refine ⟨m', ?_, by rw [show i0 + (cnt + 1) = i0 + 1 + cnt by omega]; exact hinv'⟩
    rw [List.range'_succ]
    simp only [fillRowsLoop, Option.bind_eq_bind, hcols, Option.some_bind]
    exact hloop

theorem affine_gap_mat_spec (a b : String) (pens : Penalties)
    (ha : 1 ≤ a.length) (hb : 1 ≤ b.length) :
    ∃ m, affine_gap_mat a b pens = some m ∧
      fillInv m a b (a.length + 1) := by
  have hba := length_le_utf8ByteSize a
  have hbb := length_le_utf8ByteSize b
  obtain ⟨m0, hnew, hbi, hbm, hbd, hcol, hrow⟩ :=
    new_mat_spec a b pens (by omega) (by omega)
  obtain ⟨m', hfill, hinv'⟩ := fillRowsLoop_spec a b pens a.length 1 (le_refl 1)
    (by omega) m0 ⟨hbi, hbm, hbd, hcol, hrow,
      fun i j h1 h2 h3 h4 => absurd h2 (by omega)⟩
  refine ⟨m', ?_, by rwa [Nat.add_comm 1 a.length] at hinv'⟩
  simp only [affine_gap_mat, Option.bind_eq_bind, hnew, Option.some_bind]
  exact hfill

theorem traceLoop_some (a b : String) (m : AlignMat)
    (hshi : matShape m.insertsM (a.length + 1) (b.length + 1))
    (hshm : matShape m.matchesM (a.length + 1) (b.length + 1))
    (hshd : matShape m.deletesM (a.length + 1) (b.length + 1))
    (hint : interiorOK m.matchesM (a.length + 1) (b.length + 1)) :
    ∀ (fuel a_pos b_pos : Nat) (layer : AlignmentLayer) (qa ta : List Char),
      a_pos ≤ a.length → b_pos ≤ b.length →
      2 * (a_pos + b_pos) + (if layer = AlignmentLayer.Matches then 1 else 0) + 1 ≤ fuel →
      ∃ out, traceLoop a.toList b.toList m fuel a_pos b_pos layer qa ta = some out := by
  intro fuel
  induction fuel with
  | zero =>
    intro a_pos b_pos layer qa ta _ _ hfuel
    exact absurd hfuel (by omega)
  | succ fuel ih =>
    intro a_pos b_pos layer qa ta ha hb hfuel
    by_cases hcond : a_pos > 0 ∨ b_pos > 0
    · rcases Nat.eq_zero_or_pos a_pos with ha0 | ha0
      · subst ha0
        have hb0 : 0 < b_pos := by omega
        obtain ⟨tc, htc⟩ := get?_isSome_of_lt b.toList (b_pos - 1) (by
          simpa using (by omega : b_pos - 1 < b.length))
        obtain ⟨out, hout⟩ := ih 0 (b_pos - 1) layer (qa ++ ['-']) (ta ++ [tc])
          (by omega) (by omega) (by split at hfuel <;> split <;> omega)
        refine ⟨out, ?_⟩
        simp only [traceLoop, if_pos hcond, if_pos rfl, Option.bind_eq_bind, getN?,
          htc, Option.some_bind]
        exact hout
      · rcases Nat.eq_zero_or_pos b_pos with hb0 | hb0
        · subst hb0
          obtain ⟨qc, hqc⟩ := get?_isSome_of_lt a.toList (a_pos - 1) (by
            simpa using (by omega : a_pos - 1 < a.length))
          obtain ⟨out, hout⟩ := ih (a_pos - 1) 0 layer (qa ++ [qc]) (ta ++ ['-'])
            (by omega) (by omega) (by split at hfuel <;> split <;> omega)
          refine ⟨out, ?_⟩
          simp only [traceLoop, if_pos hcond, if_neg (by omega : ¬ a_pos = 0),
            if_pos rfl, Option.bind_eq_bind, getN?, hqc, Option.some_bind]
          exact hout
        · have hna : ¬ a_pos = 0 := by omega
          have hnb : ¬ b_pos = 0 := by omega
          cases layer with
          | Inserts =>
            obtain ⟨qc, hqc⟩ := get?_isSome_of_lt a.toList (a_pos - 1) (by
              simpa using (by omega : a_pos - 1 < a.length))
            obtain ⟨cell, hcell⟩ := mgetC_lt m.insertsM (a.length + 1) (b.length + 1)
              hshi a_pos b_pos (by omega) (by omega)
            obtain ⟨out, hout⟩ := ih (a_pos - 1) b_pos
              (match cell.2 with
                | some AlignmentLayer.Matches => AlignmentLayer.Matches
                | _ => AlignmentLayer.Inserts) (qa ++ [qc]) (ta ++ ['-'])
              (by omega) hb (by split <;> split at hfuel <;> simp_all <;> omega)
            refine ⟨out, ?_⟩
            simp only [traceLoop, if_pos hcond, if_neg hna, if_neg hnb,
              Option.bind_eq_bind, getN?, hqc, Option.some_bind, hcell]
            exact hout
          | Deletes =>
            obtain ⟨tc, htc⟩ := get?_isSome_of_lt b.toList (b_pos - 1) (by
              simpa using (by omega : b_pos - 1 < b.length))
            obtain ⟨cell, hcell⟩ := mgetC_lt m.deletesM (a.length + 1) (b.length + 1)
              hshd a_pos b_pos (by omega) (by omega)
            obtain ⟨out, hout⟩ := ih a_pos (b_pos - 1)
              (match cell.2 with
                | some AlignmentLayer.Matches => AlignmentLayer.Matches
                | _ => AlignmentLayer.Deletes) (qa ++ ['-']) (ta ++ [tc])
              ha (by omega) (by split <;> split at hfuel <;> simp_all <;> omega)
            refine ⟨out, ?_⟩
            simp only [traceLoop, if_pos hcond, if_neg hna, if_neg hnb,
              Option.bind_eq_bind, getN?, htc, Option.some_bind, hcell]
            exact hout
          | Matches =>
            obtain ⟨v, t, hcell⟩ := hint a_pos b_pos (by omega) (by omega)
              (by omega) (by omega)
            cases t with
            | Matches =>
              obtain ⟨qc, hqc⟩ := get?_isSome_of_lt a.toList (a_pos - 1) (by
                simpa using (by omega : a_pos - 1 < a.length))
              obtain ⟨tc, htc⟩ := get?_isSome_of_lt b.toList (b_pos - 1) (by
                simpa using (by omega : b_pos - 1 < b.length))
              obtain ⟨out, hout⟩ := ih (a_pos - 1) (b_pos - 1) AlignmentLayer.Matches
                (qa ++ [qc]) (ta ++ [tc]) (by omega) (by omega) (by
                  simp only [if_pos rfl] at hfuel ⊢
                  omega)
              refine ⟨out, ?_⟩
              simp only [traceLoop, if_pos hcond, if_neg hna, if_neg hnb,
                Option.bind_eq_bind, hcell, Option.some_bind, getN?, hqc, htc]
              exact hout
            | Inserts =>
              obtain ⟨out, hout⟩ := ih a_pos b_pos AlignmentLayer.Inserts qa ta
                ha hb (by
                  rw [if_pos rfl] at hfuel
                  rw [if_neg (by simp : ¬ (AlignmentLayer.Inserts = AlignmentLayer.Matches))]
                  omega)
              refine ⟨out, ?_⟩
              simp only [traceLoop, if_pos hcond, if_neg hna, if_neg hnb,
                Option.bind_eq_bind, hcell, Option.some_bind]
              exact hout
            | Deletes =>
              obtain ⟨out, hout⟩ := ih a_pos b_pos AlignmentLayer.Deletes qa ta
                ha hb (by
                  rw [if_pos rfl] at hfuel
                  rw [if_neg (by simp : ¬ (AlignmentLayer.Deletes = AlignmentLayer.Matches))]
                  omega)
              refine ⟨out, ?_⟩
              simp only [traceLoop, if_pos hcond, if_neg hna, if_neg hnb,
                Option.bind_eq_bind, hcell, Option.some_bind]
              exact hout
    · refine ⟨(qa, ta), ?_⟩
      simp only [traceLoop, if_neg hcond]

theorem trace_back_some (a b : String) (m : AlignMat)
    (hshi : matShape m.insertsM (a.utf8ByteSize + 1) (b.utf8ByteSize + 1))
    (hshm : matShape m.matchesM (a.utf8ByteSize + 1) (b.utf8ByteSize + 1))
    (hshd : matShape m.deletesM (a.utf8ByteSize + 1) (b.utf8ByteSize + 1))
    (hint : interiorOK m.matchesM (a.length + 1) (b.length + 1))
    (ha : 1 ≤ a.length) (hb : 1 ≤ b.length)
    (hba : a.utf8ByteSize = a.length) (hbb : b.utf8ByteSize = b.length) :
    ∃ r, trace_back m a b = some (Except.ok r) := by
  rw [hba, hbb] at hshi hshm hshd
  obtain ⟨v, t, hcell⟩ := hint a.length b.length ha (by omega) hb (by omega)
  obtain ⟨out, hout⟩ := traceLoop_some a b m hshi hshm hshd hint
    (2 * (a.length + b.length) + 2) a.length b.length AlignmentLayer.Matches [] []
    (le_refl _) (le_refl _) (by rw [if_pos rfl])
  refine ⟨⟨v, String.mk out.1.reverse, String.mk out.2.reverse⟩, ?_⟩
  simp only [trace_back, hba, hbb, Option.bind_eq_bind, hcell, Option.some_bind, hout]
  rfl

theorem affine_gap_align_ok (a b : String) (pens : Penalties)
    (ha : 1 ≤ a.length) (hb : 1 ≤ b.length)
    (hba : a.utf8ByteSize = a.length) (hbb : b.utf8ByteSize = b.length) :
    ∃ r, affine_gap_align a b pens = some (Except.ok r) := by
  obtain ⟨m, hmat, hi, hm, hd, _, _, hint⟩ := affine_gap_mat_spec a b pens ha hb
  obtain ⟨r, hr⟩ := trace_back_some a b m hi hm hd hint ha hb hba hbb
  refine ⟨r, ?_⟩
  simp only [affine_gap_align, Option.bind_eq_bind, hmat, Option.some_bind]
  exact hr

theorem affine_gap_align_none_of_empty (a b : String) (pens : Penalties)
    (h : a.utf8ByteSize = 0 ∨ b.utf8ByteSize = 0) : affine_gap_align a b pens = none := by
  have hmat : affine_gap_mat a b pens = none := by
    simp only [affine_gap_mat, Option.bind_eq_bind, new_mat_none_of_empty a b pens h]
    rfl
  simp only [affine_gap_align, Option.bind_eq_bind, hmat]
  rfl

theorem one_le_length_of_ne_empty (s : String) (h : s ≠ "") : 1 ≤ s.length := by
  cases s with
  | mk data =>
    cases data with
    | nil => exact absurd rfl h
    | cons c cs => simp [String.length]

/-- Whatever `trace_back` returns, it is never the `Err` variant: the only
`return` in the Rust function is `Ok(result)`. -/
theorem trace_back_not_err (m : AlignMat) (a b : String)
    (r : Except AlignmentError Alignment) (h : trace_back m a b = some r) :
    ∃ al, r = Except.ok al := by
  simp only [trace_back, Option.bind_eq_bind, Option.bind_eq_some] at h
  obtain ⟨sc, _, h⟩ := h
  obtain ⟨v, _, h⟩ := h
  obtain ⟨p, _, h⟩ := h
  obtain ⟨qa, ta⟩ := p
  exact ⟨_, (Option.some.inj h).symm⟩

theorem affine_gap_align_not_err (a b : String) (pens : Penalties)
    (r : Except AlignmentError Alignment) (h : affine_gap_align a b pens = some r) :
    ∃ al, r = Except.ok al := by
  simp only [affine_gap_align, Option.bind_eq_bind, Option.bind_eq_some] at h
  obtain ⟨m, _, h⟩ := h
  exact trace_back_not_err m a b r h

/-! ## Claim theorems: C1, C7, C8, C10 -/

/-- Claim C1 (code bug): the claim says that on non-empty strings with
`|query| ≤ |text|` and positive penalties both aligners return a result
with equal scores.  On `query = "aa"`, `text = "éé"` with penalties
`(1, 1, 1)` — lengths `2 ≤ 2` in characters and `2 ≤ 4` in bytes, so the
precondition holds under either reading — `wavefront_align` succeeds with
score 2 while `affine_gap_align` returns no value at all: its fill loops
iterate over character counts while its matrix dimensions and traceback
start position use byte lengths, so `trace_back` reads the unfilled cell
`matches[2][4]` and panics on the `unwrap`. -/
theorem C1_score_equality_divergence :
    ("aa" : String) ≠ "" ∧ ("éé" : String) ≠ "" ∧
    "aa".length ≤ "éé".length ∧ "aa".utf8ByteSize ≤ "éé".utf8ByteSize ∧
    wavefront_align "aa" "éé" ⟨1, 1, 1⟩ =
      some (AlignResult.Res ⟨2, "aa", "éé"⟩) ∧
    affine_gap_align "aa" "éé" ⟨1, 1, 1⟩ = none := by
  refine ⟨by decide, by decide, by decide, by decide, by decide, by rfl⟩

/-- Claim C7 (code bug): the claim says `wavefront_align` returns
`QueryTooLong` exactly when both strings are non-empty and
`|query| > |text|`.  On `query = "aaa"`, `text = "éé"` the query is longer
in characters (3 > 2) — the measure the spec's strings are described in and
the one the engine itself iterates over — but the guard compares **byte**
lengths (`str::len()`, 3 ≤ 4), so instead of the `QueryTooLong` error the
program returns a successful alignment. -/
theorem C7_querytoolong_guard_divergence :
    "aaa".length > "éé".length ∧
    ¬ "aaa".utf8ByteSize > "éé".utf8ByteSize ∧
    wavefront_align "aaa" "éé" ⟨1, 1, 1⟩ =
      some (AlignResult.Res ⟨4, "aaa", "-éé"⟩) := by
  refine ⟨by decide, by decide, by decide⟩

/-- Claim C10, counterexample: on the non-empty pair `("é", "a")` the
reference aligner returns no value at all (it panics): `new_mat` sizes the
matrices by byte lengths (3 × 2 here) but the fill loops run over character
counts, so `trace_back`'s initial `matches[2][1].0.unwrap()` reads an
unfilled cell. -/
theorem C10_reference_multibyte_counterexample :
    ("é" : String) ≠ "" ∧ ("a" : String) ≠ "" ∧
    affine_gap_align "é" "a" ⟨1, 1, 1⟩ = none := by
  refine ⟨by decide, by decide, by rfl⟩

/-- Claim C10, amended: `affine_gap_align`'s error variant is indeed
unreachable — whenever it returns a value at all, that value is `Ok` — but
it does not return a value on every non-empty pair: it panics when a
string contains a multi-byte character.  On non-empty inputs whose
UTF-8 byte length equals their character count (e.g. ASCII), in either
length order, it does return the `Ok` variant. -/
theorem C10_reference_ok_amended :
    (∀ (a b : String) (pens : Penalties) (r : Except AlignmentError Alignment),
      affine_gap_align a b pens = some r → ∃ al, r = Except.ok al) ∧
    (∀ (a b : String) (pens : Penalties), a ≠ "" → b ≠ "" →
      a.utf8ByteSize = a.length → b.utf8ByteSize = b.length →
      ∃ r, affine_gap_align a b pens = some (Except.ok r)) := by
  constructor
  · intro a b pens r h
    exact affine_gap_align_not_err a b pens r h
  · intro a b pens ha hb hba hbb
    exact affine_gap_align_ok a b pens (one_le_length_of_ne_empty a ha)
      (one_le_length_of_ne_empty b hb) hba hbb

/-- Witness for `C10_reference_ok_amended`: the never-`Err` conjunct at the
concrete run `("A", "B")`, and the all-single-byte success conjunct at
`("ABC", "B")` (query longer than text, exercising "either length
order"). -/
theorem C10_reference_ok_amended_witness :
    (∃ al, (Except.ok ⟨1, "A", "B"⟩ : Except AlignmentError Alignment) =
      Except.ok al) ∧
    ∃ r, affine_gap_align "ABC" "B" ⟨2, 3, 4⟩ = some (Except.ok r) :=
  ⟨C10_reference_ok_amended.1 "A" "B" ⟨1, 1, 1⟩ (Except.ok ⟨1, "A", "B"⟩) (by rfl),
   C10_reference_ok_amended.2 "ABC" "B" ⟨2, 3, 4⟩ (by decide) (by decide)
     (by decide) (by decide)⟩

/-- Claim C8, counterexample: on `query = "AB"`, `text = "A"` (both
non-empty) with penalties `(1, 1, 1)`, `wavefront_align` fails with
`QueryTooLong` while `affine_gap_align` succeeds with score 2 — so it is not
the case that the two aligners always both succeed or both fail. -/
theorem C8_error_symmetry_counterexample :
    wavefront_align "AB" "A" ⟨1, 1, 1⟩ =
      some (AlignResult.Error AlignmentError.QueryTooLong) ∧
    affine_gap_align "AB" "A" ⟨1, 1, 1⟩ =
      some (Except.ok ⟨2, "AB", "A-"⟩) := by
  refine ⟨by decide, by rfl⟩

/-- Claim C8, amended: the two aligners disagree on failures, with all
length comparisons the **byte**-length ones the code makes.  On an input
pair with an empty (zero-byte) query or text, `wavefront_align` reports
`ZeroLength` while `affine_gap_align` panics (returns no value at all,
modelled `none`) rather than reporting a failure; and on non-empty inputs
whose query has more bytes than the text, `wavefront_align` reports
`QueryTooLong` while — whenever every character is single-byte, so that the
reference's byte/char mixing does not itself panic — `affine_gap_align`
succeeds.  The reference never returns its error value. -/
theorem C8_error_asymmetry_amended (q t : String) (pens : Penalties) :
    ((q.utf8ByteSize = 0 ∨ t.utf8ByteSize = 0) →
      wavefront_align q t pens = some (AlignResult.Error AlignmentError.ZeroLength) ∧
      affine_gap_align q t pens = none) ∧
    (1 ≤ q.utf8ByteSize → 1 ≤ t.utf8ByteSize → q.utf8ByteSize > t.utf8ByteSize →
      wavefront_align q t pens = some (AlignResult.Error AlignmentError.QueryTooLong) ∧
      (q.utf8ByteSize = q.length → t.utf8ByteSize = t.length →
        ∃ r, affine_gap_align q t pens = some (Except.ok r))) := by
  constructor
  · intro h
    refine ⟨?_, affine_gap_align_none_of_empty q t pens h⟩
    simp only [wavefront_align, if_pos h]
  · intro hq ht hqt
    refine ⟨?_, ?_⟩
    · simp only [wavefront_align]
      rw [if_neg (by omega), if_pos hqt]
    · intro hba hbb
      exact affine_gap_align_ok q t pens (by omega) (by omega) hba hbb

/-- Witness for `C8_error_asymmetry_amended`: the empty-input conjunct at
`("", "A")` and the too-long conjunct at `("AB", "A")` (all characters
single-byte, so the inner implication's hypotheses are discharged too). -/
theorem C8_error_asymmetry_amended_witness :
    (wavefront_align "" "A" ⟨1, 1, 1⟩ =
        some (AlignResult.Error AlignmentError.ZeroLength) ∧
      affine_gap_align "" "A" ⟨1, 1, 1⟩ = none) ∧
    (wavefront_align "AB" "A" ⟨1, 1, 1⟩ =
        some (AlignResult.Error AlignmentError.QueryTooLong) ∧
      ∃ r, affine_gap_align "AB" "A" ⟨1, 1, 1⟩ = some (Except.ok r)) := by
  refine ⟨(C8_error_asymmetry_amended "" "A" ⟨1, 1, 1⟩).1 (by decide), ?_⟩
  have h := (C8_error_asymmetry_amended "AB" "A" ⟨1, 1, 1⟩).2
    (by decide) (by decide) (by decide)
  exact ⟨h.1, h.2 (by decide) (by decide)⟩

end RustWfa
